import Mathlib

/-!
Verification of the rule-based classification engine, evaluator and
lab-table extractor of the 2018-n2c2-track-1 repository.

The Python sources (`src/rules.py`, `src/evaluator.py`, `src/reader.py`)
are shallowly embedded below.  Documents are lists of characters; the
regular expressions compiled by the source are embedded as `Rx` values and
executed by a backtracking matcher (`mrun`) that follows Python `re`
semantics: leftmost match, priority-ordered alternation, greedy and lazy
bounded repetition, ASCII word boundaries, capture groups, and the scan
behaviours of `search`, `finditer`, `findall`, `sub` and `split`.
All patterns in the source are compiled with `re.IGNORECASE`, so literal
characters are matched case-insensitively throughout.
-/

/-! ### Character classes and Python string helpers -/

/-- ASCII word character, Python `\w` on ASCII input. -/
def isWordCh (c : Char) : Bool := c.isAlphanum || c == '_'

/-- Python `str.isspace` / regex `\s` for the ASCII whitespace characters. -/
def isPySpace (c : Char) : Bool :=
  c == ' ' || c == '\t' || c == '\n' || c == '\r' || c == '\x0b' || c == '\x0c'

/-- Space or tab, the class `[ \t]`. -/
def isSpTab (c : Char) : Bool := c == ' ' || c == '\t'

/-- Python `str.strip()`. -/
def pyStrip (s : List Char) : List Char :=
  ((s.dropWhile isPySpace).reverse.dropWhile isPySpace).reverse

/-- Accumulator of `pySplitNL`. -/
def pySplitNLAux : List Char → List Char → List (List Char)
  | [], acc => [acc.reverse]
  | c :: t, acc => if c == '\n' then acc.reverse :: pySplitNLAux t [] else pySplitNLAux t (c :: acc)

/-- Python `str.splitlines()` for text whose only line break is `'\n'`:
split on newlines, without a trailing empty piece. -/
def pySplitlines (s : List Char) : List (List Char) :=
  if s.isEmpty then []
  else
    let parts := pySplitNLAux s []
    if parts.getLast? = some [] then parts.dropLast else parts

/-- Accumulator of `pyWords`. -/
def pyWordsAux : List Char → List Char → List (List Char)
  | [], acc => if acc.isEmpty then [] else [acc.reverse]
  | c :: t, acc =>
    if isPySpace c then
      if acc.isEmpty then pyWordsAux t [] else acc.reverse :: pyWordsAux t []
    else pyWordsAux t (c :: acc)

/-- Python `str.split()` with no argument: whitespace-separated words. -/
def pyWords (s : List Char) : List (List Char) := pyWordsAux s []

/-- Python `' '.join(ws)`. -/
def joinSp (ws : List (List Char)) : List Char := List.intercalate [' '] ws

/-- Python `' '.join(x.split())`: collapse all whitespace to single spaces. -/
def normSpace (s : List Char) : List Char := joinSp (pyWords s)

/-- Python `str.replace(pat, rep)` (case-sensitive, all occurrences),
with explicit fuel; `pat` is never empty where this is used. -/
def replaceAllAux (pat rep : List Char) : Nat → List Char → List Char
  | 0, s => s
  | fuel + 1, s =>
    if pat ≠ [] ∧ pat.isPrefixOf s then
      rep ++ replaceAllAux pat rep fuel (s.drop pat.length)
    else
      match s with
      | [] => []
      | c :: t => c :: replaceAllAux pat rep fuel t

/-- Python `str.replace(pat, rep)`. -/
def replaceAll (pat rep s : List Char) : List Char :=
  replaceAllAux pat rep (s.length + 1) s

/-- Value of a list of decimal digits. -/
def digitsVal (ds : List Char) : Nat := ds.foldl (fun a c => a * 10 + (c.toNat - 48)) 0

/-- Python `float` on the strings matched by the numeric patterns of the
source (`digits`, optionally a dot and further digits), as an exact rational.
All numeric comparisons performed by the source are between floats parsed
from at-most-2-decimal strings and at-most-1-decimal literals, where IEEE
double rounding cannot change the order, so the rational model is exact. -/
def parseFloat (s : List Char) : ℚ :=
  let ip := s.takeWhile Char.isDigit
  match s.dropWhile Char.isDigit with
  | '.' :: fr =>
    let fd := fr.takeWhile Char.isDigit
    mkRat (digitsVal ip * 10 ^ fd.length + digitsVal fd) (10 ^ fd.length)
  | _ => (digitsVal ip : ℚ)

/-! ### A backtracking regex engine with Python `re` semantics -/

/-- Regex abstract syntax.  `cls` is a single-character class, `rep` is
bounded or unbounded repetition of a single-character class (`mx = none`
means unbounded; every unbounded quantifier in the source sits on a
single-character class), `wordB` is `\b`, `bol` is `^` at the start of the
input, and `grp` is a numbered capture group. -/
inductive Rx where
  | eps : Rx
  | cls (p : Char → Bool) : Rx
  | seq (r1 r2 : Rx) : Rx
  | alt (r1 r2 : Rx) : Rx
  | rep (p : Char → Bool) (mn : Nat) (mx : Option Nat) (lz : Bool) : Rx
  | wordB : Rx
  | bol : Rx
  | grp (g : Nat) (r : Rx) : Rx

/-- Captured groups: group number paired with captured text. -/
abbrev Caps := List (Nat × List Char)

/-- Is the position between `pv` (character to the left, if any) and the
head of `s` a word boundary? -/
def atBoundary (pv : Option Char) (s : List Char) : Bool :=
  (match pv with | some c => isWordCh c | none => false)
    != (match s with | c :: _ => isWordCh c | [] => false)

/-- Length of the longest prefix of `s` whose characters satisfy `p`. -/
def runLen (p : Char → Bool) : List Char → Nat
  | [] => 0
  | c :: t => if p c then runLen p t + 1 else 0

/-- Candidate repetition counts between `mn` and `m`, in the order a
backtracking matcher tries them: longest first when greedy, shortest
first when lazy.  Empty when `m < mn`. -/
def repKs (mn m : Nat) (lz : Bool) : List Nat :=
  if mn ≤ m then (List.range (m - mn + 1)).map (fun d => if lz then mn + d else m - d)
  else []

/-- Run a regex at the current position.  `pv` is the character directly
to the left of the position (`none` at the start of the input), `s` the
rest of the input, `cs` the captures so far.  Returns every way the regex
can match a prefix of `s`, in backtracking priority order: the head of the
result is the match Python's engine commits to. -/
def mrun : Rx → Option Char → List Char → Caps → List (Option Char × List Char × Caps)
  | .eps, pv, s, cs => [(pv, s, cs)]
  | .cls p, pv, s, cs =>
    match s with
    | [] => []
    | c :: t => if p c then [(some c, t, cs)] else []
  | .seq r1 r2, pv, s, cs =>
    (mrun r1 pv s cs).flatMap (fun x => mrun r2 x.1 x.2.1 x.2.2)
  | .alt r1 r2, pv, s, cs => mrun r1 pv s cs ++ mrun r2 pv s cs
  | .rep p mn mx lz, pv, s, cs =>
    let m := match mx with
      | some b => min (runLen p s) b
      | none => runLen p s
    (repKs mn m lz).map (fun k =>
      if k = 0 then (pv, s, cs)
      else (match s.drop (k - 1) with | c :: _ => some c | [] => pv, s.drop k, cs))
  | .wordB, pv, s, cs => if atBoundary pv s then [(pv, s, cs)] else []
  | .bol, pv, s, cs => if pv.isNone then [(pv, s, cs)] else []
  | .grp g r, pv, s, cs =>
    (mrun r pv s cs).map (fun x => (x.1, x.2.1, (g, s.take (s.length - x.2.1.length)) :: x.2.2))

/-- Leftmost match of `r` in `s` (with `pv` the character left of `s`):
Python's scan loop.  Returns the text skipped before the match, the
matched text, the captures, and the character/rest after the match. -/
def rnext (r : Rx) : Option Char → List Char → Option (List Char × List Char × Caps × Option Char × List Char)
  | pv, s =>
    match mrun r pv s [] with
    | (pv', s', cs) :: _ => some ([], s.take (s.length - s'.length), cs, pv', s')
    | [] =>
      match s with
      | [] => none
      | c :: t => (rnext r (some c) t).map (fun y => (c :: y.1, y.2))

/-- Python `pattern.search(s)` as a Boolean. -/
def rsearch (r : Rx) (s : List Char) : Bool := (rnext r none s).isSome

/-- Accumulator of `rfind`, with fuel. -/
def rfindAux (r : Rx) : Nat → Option Char → List Char → List (List Char × Caps)
  | 0, _, _ => []
  | fuel + 1, pv, s =>
    match rnext r pv s with
    | none => []
    | some (_, matched, cs, pv', s') =>
      if matched.isEmpty then
        match s' with
        | [] => [(matched, cs)]
        | c :: t => (matched, cs) :: rfindAux r fuel (some c) t
      else (matched, cs) :: rfindAux r fuel pv' s'

/-- Python `pattern.finditer(s)`: non-overlapping matches left to right,
each as (matched text, captures). -/
def rfind (r : Rx) (s : List Char) : List (List Char × Caps) :=
  rfindAux r (s.length + 1) none s

/-- Text captured by group `g` (empty if the group did not participate). -/
def capGet (cs : Caps) (g : Nat) : List Char :=
  match cs.find? (fun x => x.1 == g) with
  | some x => x.2
  | none => []

/-- Python `pattern.findall(s)` for a pattern with exactly one capture
group: the list of group-1 captures. -/
def rfindall1 (r : Rx) (s : List Char) : List (List Char) :=
  (rfind r s).map (fun x => capGet x.2 1)

/-- Python `pattern.findall(s)` for a pattern with no capture group:
the list of matched texts. -/
def rfindall0 (r : Rx) (s : List Char) : List (List Char) :=
  (rfind r s).map (fun x => x.1)

/-- Accumulator of `rsub`, with fuel. -/
def rsubAux (r : Rx) : Nat → Option Char → List Char → List Char
  | 0, _, s => s
  | fuel + 1, pv, s =>
    match rnext r pv s with
    | none => s
    | some (skip, matched, _, pv', s') =>
      if matched.isEmpty then
        match s' with
        | [] => skip
        | c :: t => skip ++ c :: rsubAux r fuel (some c) t
      else skip ++ rsubAux r fuel pv' s'

/-- Python `pattern.sub('', s)`: delete every non-overlapping match. -/
def rsub (r : Rx) (s : List Char) : List Char := rsubAux r (s.length + 1) none s

/-- First piece of Python `pattern.split(s)`: the text before the first
match, or all of `s` when there is no match. -/
def rsplit0 (r : Rx) (s : List Char) : List Char :=
  match rnext r none s with
  | some (skip, _, _, _, _) => skip
  | none => s

/-! ### Regex construction helpers -/

/-- A single literal character, case-insensitive (`re.IGNORECASE`). -/
def chr (c : Char) : Rx := .cls (fun x => x.toLower == c.toLower)

/-- A literal string, case-insensitive. -/
def lit (w : String) : Rx := w.data.foldr (fun c r => .seq (chr c) r) .eps

/-- Concatenation of a list of regexes. -/
def cat (rs : List Rx) : Rx := rs.foldr .seq .eps

/-- Priority-ordered alternation; the empty alternation never matches. -/
def alts (rs : List Rx) : Rx := rs.foldr .alt (.cls (fun _ => false))

/-- Alternation of literal words, in source order. -/
def altsL (ws : List String) : Rx := alts (ws.map lit)

/-- Greedy `p{0,n}`. -/
def gapG (p : Char → Bool) (n : Nat) : Rx := .rep p 0 (some n) false

/-- Lazy `p{,n}?`. -/
def gapL (p : Char → Bool) (n : Nat) : Rx := .rep p 0 (some n) true

/-- Greedy `p+`. -/
def plus (p : Char → Bool) : Rx := .rep p 1 none false

/-- Greedy `p*`. -/
def star (p : Char → Bool) : Rx := .rep p 0 none false

/-- Greedy `r?` on a general regex. -/
def opt (r : Rx) : Rx := .alt r .eps

/-- Greedy `c?` on a literal character, case-insensitive. -/
def optC (c : Char) : Rx := .rep (fun x => x.toLower == c.toLower) 0 (some 1) false

/-- The class `.` under `re.DOTALL`. -/
def anyCh : Char → Bool := fun _ => true

/-- The class `.` without `re.DOTALL`: anything but a newline. -/
def anyNoNL : Char → Bool := fun c => c != '\n'

/-- The class `\d`. -/
def digitCh : Char → Bool := Char.isDigit

/-! ### rules.py: ALCOHOL-ABUSE

`RuleBasedClassifier.predict` (the first rule-set version, lines 121-171)
and `ImprovedRuleBasedClassifier.predict` (the improved version, lines
413-464).  Names `ra…` embed the first version, `ri…` the improved one. -/

/-- Baseline `denies`: `(?:deni|deny).{,20}?(?:alcohol|drink|etoh)` (DOTALL). -/
def raDenies : Rx :=
  cat [altsL ["deni", "deny"], gapL anyCh 20, altsL ["alcohol", "drink", "etoh"]]

/-- Baseline `no_abuse_drink`:
`(?:ago|no|past|prev|prior|history|h/o).{,20}?(?:abuse|dependence|heavy).{,20}?(?:alcohol|drink|etoh)`. -/
def raNoAbuseDrink : Rx :=
  cat [altsL ["ago", "no", "past", "prev", "prior", "history", "h/o"], gapL anyCh 20,
    altsL ["abuse", "dependence", "heavy"], gapL anyCh 20, altsL ["alcohol", "drink", "etoh"]]

/-- Baseline `no_drink_abuse`:
`(?:ago|no|past|prev|prior|history|h/o).{,20}?(?:alcohol|drink|etoh).{,20}?(?:abuse|dependence|heavy)`. -/
def raNoDrinkAbuse : Rx :=
  cat [altsL ["ago", "no", "past", "prev", "prior", "history", "h/o"], gapL anyCh 20,
    altsL ["alcohol", "drink", "etoh"], gapL anyCh 20, altsL ["abuse", "dependence", "heavy"]]

/-- Baseline `drink_no_abuse`:
`(?:alcohol|drink|etoh).{,20}?(?:ago|no|past|prev|prior|history|h/o).{,20}?(?:abuse|dependence|heavy)`. -/
def raDrinkNoAbuse : Rx :=
  cat [altsL ["alcohol", "drink", "etoh"], gapL anyCh 20,
    altsL ["ago", "no", "past", "prev", "prior", "history", "h/o"], gapL anyCh 20,
    altsL ["abuse", "dependence", "heavy"]]

/-- Baseline `abuse_drink_no`:
`(?:abuse|dependence|heavy).{,20}?(?:alcohol|drink|etoh).{,20}?(?:ago|no|past|prev|prior|history|h/o)`. -/
def raAbuseDrinkNo : Rx :=
  cat [altsL ["abuse", "dependence", "heavy"], gapL anyCh 20, altsL ["alcohol", "drink", "etoh"],
    gapL anyCh 20, altsL ["ago", "no", "past", "prev", "prior", "history", "h/o"]]

/-- Baseline `limit`: `limit.{,20}?(?:alcohol|drink|etoh)`. -/
def raLimit : Rx := cat [lit "limit", gapL anyCh 20, altsL ["alcohol", "drink", "etoh"]]

/-- Baseline `amount`: `amount.{,20}?(?:alcohol|etoh).{,20}?drink`. -/
def raAmount : Rx :=
  cat [lit "amount", gapL anyCh 20, altsL ["alcohol", "etoh"], gapL anyCh 20, lit "drink"]

/-- Baseline `therapy`: `therapy.{,20}?(?:alcohol|drink|etoh)`. -/
def raTherapy : Rx := cat [lit "therapy", gapL anyCh 20, altsL ["alcohol", "drink", "etoh"]]

/-- Baseline `drink_abuse`: `(?:alcohol|drink|etoh).{,20}?(?:abuse|dependence|heavy)`. -/
def raDrinkAbuse : Rx :=
  cat [altsL ["alcohol", "drink", "etoh"], gapL anyCh 20, altsL ["abuse", "dependence", "heavy"]]

/-- Baseline `abuse_drink`: `(?:abuse|dependence|heavy).{,20}?(?:alcohol|drink|etoh)`. -/
def raAbuseDrink : Rx :=
  cat [altsL ["abuse", "dependence", "heavy"], gapL anyCh 20, altsL ["alcohol", "drink", "etoh"]]

/-- Baseline ALCOHOL-ABUSE: negative-evidence patterns first (label 0 and
short-circuit), then positive-evidence patterns (label 1), default 0. -/
def raAlcoholAbuse (x : List Char) : Nat :=
  if rsearch raDenies x || rsearch raNoAbuseDrink x || rsearch raNoDrinkAbuse x ||
      rsearch raDrinkNoAbuse x || rsearch raAbuseDrinkNo x then 0
  else if rsearch raLimit x || rsearch raAmount x || rsearch raTherapy x ||
      rsearch raDrinkAbuse x || rsearch raAbuseDrink x then 1
  else 0

/-- Improved version word lists: `(?:ago|no|none|past|prev|previous|prior|history|h/o|hx)`. -/
def riHistWords : List String :=
  ["ago", "no", "none", "past", "prev", "previous", "prior", "history", "h/o", "hx"]

/-- Improved version drink words: `(?:alcohol|drink|drinking|etoh)`. -/
def riDrinkWords : List String := ["alcohol", "drink", "drinking", "etoh"]

/-- Improved version abuse words: `(?:abuse|dependence|heavy|ingestion)`. -/
def riAbuseWords : List String := ["abuse", "dependence", "heavy", "ingestion"]

/-- The class `[^.,]`. -/
def notDotComma : Char → Bool := fun c => !(c == '.' || c == ',')

/-- Improved `denies`: `\b(?:denies|deny)\b[^.,]{,20}?\b(?:alcohol|drink|drinking|etoh)\b`. -/
def riDenies : Rx :=
  cat [.wordB, altsL ["denies", "deny"], .wordB, gapL notDotComma 20, .wordB,
    altsL riDrinkWords, .wordB]

/-- Improved `no_abuse_drink`: history words, abuse words, drink words, in
that order, `\b`-anchored with lazy `[^.,]{,20}?` gaps. -/
def riNoAbuseDrink : Rx :=
  cat [.wordB, altsL riHistWords, .wordB, gapL notDotComma 20, .wordB, altsL riAbuseWords,
    .wordB, gapL notDotComma 20, .wordB, altsL riDrinkWords, .wordB]

/-- Improved `no_drink_abuse`: history words, drink words, abuse words. -/
def riNoDrinkAbuse : Rx :=
  cat [.wordB, altsL riHistWords, .wordB, gapL notDotComma 20, .wordB, altsL riDrinkWords,
    .wordB, gapL notDotComma 20, .wordB, altsL riAbuseWords, .wordB]

/-- Improved `drink_no_abuse`: drink words, history words, abuse words. -/
def riDrinkNoAbuse : Rx :=
  cat [.wordB, altsL riDrinkWords, .wordB, gapL notDotComma 20, .wordB, altsL riHistWords,
    .wordB, gapL notDotComma 20, .wordB, altsL riAbuseWords, .wordB]

/-- Improved `abuse_drink_no`: `(?:abuse|binge|dependence|heavy|ingestion)`,
drink words, history words. -/
def riAbuseDrinkNo : Rx :=
  cat [.wordB, altsL ["abuse", "binge", "dependence", "heavy", "ingestion"], .wordB,
    gapL notDotComma 20, .wordB, altsL riDrinkWords, .wordB, gapL notDotComma 20, .wordB,
    altsL riHistWords, .wordB]

/-- Improved `limit`: `\blimit\b[^.,]{,20}?\b(?:alcohol|drink|drinking|etoh)\b`. -/
def riLimit : Rx :=
  cat [.wordB, lit "limit", .wordB, gapL notDotComma 20, .wordB, altsL riDrinkWords, .wordB]

/-- Improved `amount`:
`\bamount\b[^.,]{,20}?\b(?:alcohol|etoh)\b[^.,]{,20}?\b(?:drink|drinking)\b`. -/
def riAmount : Rx :=
  cat [.wordB, lit "amount", .wordB, gapL notDotComma 20, .wordB, altsL ["alcohol", "etoh"],
    .wordB, gapL notDotComma 20, .wordB, altsL ["drink", "drinking"], .wordB]

/-- Improved `therapy`: `\btherapy\b[^.,]{,20}?\b(?:alcohol|drink|drinking|etoh)\b`. -/
def riTherapy : Rx :=
  cat [.wordB, lit "therapy", .wordB, gapL notDotComma 20, .wordB, altsL riDrinkWords, .wordB]

/-- Improved `drink_abuse`: drink words then abuse words. -/
def riDrinkAbuse : Rx :=
  cat [.wordB, altsL riDrinkWords, .wordB, gapL notDotComma 20, .wordB, altsL riAbuseWords, .wordB]

/-- Improved `abuse_drink`: `(?:abuse|binge|dependence|heavy|ingestion)` then drink words. -/
def riAbuseDrink : Rx :=
  cat [.wordB, altsL ["abuse", "binge", "dependence", "heavy", "ingestion"], .wordB,
    gapL notDotComma 20, .wordB, altsL riDrinkWords, .wordB]

/-- Improved ALCOHOL-ABUSE: negative-evidence patterns first (label 0 and
short-circuit), then positive-evidence patterns (label 1), default 0. -/
def riAlcoholAbuse (x : List Char) : Nat :=
  if rsearch riDenies x || rsearch riNoAbuseDrink x || rsearch riNoDrinkAbuse x ||
      rsearch riDrinkNoAbuse x || rsearch riAbuseDrinkNo x then 0
  else if rsearch riLimit x || rsearch riAmount x || rsearch riTherapy x ||
      rsearch riDrinkAbuse x || rsearch riAbuseDrink x then 1
  else 0

/-! ### rules.py: ADVANCED-CAD

Lines 93-120 (first version) and 383-412 (improved version).  The drug
list is read from `data/CAD_drugs_clean.txt`, a newline-delimited file of
drug names joined into `\b(name|…)\b`; the matcher is parametrized by its
contents. -/

/-- The MI abbreviation alternation shared by ADVANCED-CAD, ASP-FOR-MI and
MI-6MOS: `(myocardial infarction|MI|IMI|AMI|ASMI|HMI|NQWMI|NSTEMI|OASMI|SEMI|STEMI|TIMI)`. -/
def miWords : List String :=
  ["myocardial infarction", "MI", "IMI", "AMI", "ASMI", "HMI", "NQWMI", "NSTEMI", "OASMI",
   "SEMI", "STEMI", "TIMI"]

/-- `regex_mi`: `(.{0,40})\b(mi words)\b(.{0,20})` (no DOTALL). -/
def cadRegexMI : Rx :=
  cat [.grp 1 (gapG anyNoNL 40), .wordB, .grp 2 (altsL miWords), .wordB, .grp 3 (gapG anyNoNL 20)]

/-- `regex_angina`: `(.{0,40})\bangina\b(.{0,20})`. -/
def cadRegexAngina : Rx :=
  cat [.grp 1 (gapG anyNoNL 40), .wordB, lit "angina", .wordB, .grp 2 (gapG anyNoNL 20)]

/-- `regex_ischemia`: `(.{0,40})\bischemia\b(.{0,20})`. -/
def cadRegexIschemia : Rx :=
  cat [.grp 1 (gapG anyNoNL 40), .wordB, lit "ischemia", .wordB, .grp 2 (gapG anyNoNL 20)]

/-- The alternative `r\\?o` of the negation lists: literal `r`, an optional
literal backslash, then `o`. -/
def rBackslashO : Rx := cat [chr 'r', .rep (fun c => c == '\\') 0 (some 1) false, chr 'o']

/-- Family/negation words shared by both ADVANCED-CAD negation regexes. -/
def cadNegTailWords : List String :=
  ["no", "not", "negative", "free", "unlikely", "any", "absence", "absent", "father", "mother",
   "dad", "mom", "grandfather", "grandmother", "brother", "sister", "son", "daughter",
   "family", "fh"]

/-- Baseline `regex_neg` (line 100):
`\b(rule-out|rule out|ruled out|ruling out|r\\?o|no|…|fh)\b`. -/
def cadNegBase : Rx :=
  cat [.wordB, .grp 1 (alts ([lit "rule-out", lit "rule out", lit "ruled out",
    lit "ruling out", rBackslashO] ++ cadNegTailWords.map lit)), .wordB]

/-- Improved `regex_neg` (line 392): as the baseline list with `r/o` added
after `r\\?o`. -/
def cadNegImp : Rx :=
  cat [.wordB, .grp 1 (alts ([lit "rule-out", lit "rule out", lit "ruled out",
    lit "ruling out", rBackslashO, lit "r/o"] ++ cadNegTailWords.map lit)), .wordB]

/-- `\b(drug1|drug2|…)\b` built from the drug-list file contents. -/
def cadDrugRx (drugs : List String) : Rx := cat [.wordB, .grp 1 (altsL drugs), .wordB]

/-- Drug evidence: `len(list(set([m.group(0) for m in regex.finditer(x)]))) >= 2`. -/
def cadDrugsEv (drugs : List String) (x : List Char) : Bool :=
  2 ≤ ((rfind (cadDrugRx drugs) x).map (fun m => m.1)).dedup.length

/-- Evidence from a context-window regex: some `finditer` match whose two
captured flanks `g1`, `g2` are both free of the negation vocabulary (the
`for … if … break` loops of the source). -/
def cadFlankEv (rx : Rx) (g1 g2 : Nat) (neg : Rx) (x : List Char) : Bool :=
  (rfind rx x).any (fun m => !rsearch neg (capGet m.2 g1) && !rsearch neg (capGet m.2 g2))

/-- The `complications` counter of the baseline ADVANCED-CAD branch: one
point per evidence type (≥2 distinct drug matches; non-negated MI;
non-negated angina; non-negated ischemia). -/
def raCadComplications (drugs : List String) (x : List Char) : Nat :=
  (if cadDrugsEv drugs x then 1 else 0) +
  (if cadFlankEv cadRegexMI 1 3 cadNegBase x then 1 else 0) +
  (if cadFlankEv cadRegexAngina 1 2 cadNegBase x then 1 else 0) +
  (if cadFlankEv cadRegexIschemia 1 2 cadNegBase x then 1 else 0)

/-- Baseline ADVANCED-CAD: label 1 iff `complications >= 2`. -/
def raAdvancedCAD (drugs : List String) (x : List Char) : Nat :=
  if 2 ≤ raCadComplications drugs x then 1 else 0

/-- The `complications` counter of the improved ADVANCED-CAD branch. -/
def riCadComplications (drugs : List String) (x : List Char) : Nat :=
  (if cadDrugsEv drugs x then 1 else 0) +
  (if cadFlankEv cadRegexMI 1 3 cadNegImp x then 1 else 0) +
  (if cadFlankEv cadRegexAngina 1 2 cadNegImp x then 1 else 0) +
  (if cadFlankEv cadRegexIschemia 1 2 cadNegImp x then 1 else 0)

/-- Improved ADVANCED-CAD: label 1 iff `complications >= 2`. -/
def riAdvancedCAD (drugs : List String) (x : List Char) : Nat :=
  if 2 ≤ riCadComplications drugs x then 1 else 0

/-! ### rules.py: ASP-FOR-MI

Lines 172-181 (first version) and 465-475 (improved version). -/

/-- Baseline `regex2`: `(.{0,40})\b(aspirin|asa|acetylsalicylic)\b(.{0,40})` (no DOTALL). -/
def raAspRegex2 : Rx :=
  cat [.grp 1 (gapG anyNoNL 40), .wordB, .grp 2 (altsL ["aspirin", "asa", "acetylsalicylic"]),
    .wordB, .grp 3 (gapG anyNoNL 40)]

/-- Baseline `regex_neg`: `(avoid|stop|causes|rash|ulcer|allerg)`. -/
def raAspNeg : Rx :=
  .grp 1 (altsL ["avoid", "stop", "causes", "rash", "ulcer", "allerg"])

/-- Baseline ASP-FOR-MI: label 1 iff some aspirin mention has both flanks
free of the negation vocabulary. -/
def raAspForMI (x : List Char) : Nat :=
  if (rfind raAspRegex2 x).any
      (fun m => !rsearch raAspNeg (capGet m.2 1) && !rsearch raAspNeg (capGet m.2 3)) then 1
  else 0

/-- Improved `regex`: `(.{0,40})\b(aspirin|asa|acetylsalicylic)\b(.{0,40})` with DOTALL. -/
def riAspRegex : Rx :=
  cat [.grp 1 (gapG anyCh 40), .wordB, .grp 2 (altsL ["aspirin", "asa", "acetylsalicylic"]),
    .wordB, .grp 3 (gapG anyCh 40)]

/-- Improved `regex_neg`:
`(avoid|stop|causes|rash|ulcer|allerg|consider|other\sday|none|should)` (DOTALL). -/
def riAspNeg : Rx :=
  .grp 1 (alts [lit "avoid", lit "stop", lit "causes", lit "rash", lit "ulcer", lit "allerg",
    lit "consider", cat [lit "other", .cls isPySpace, lit "day"], lit "none", lit "should"])

/-- Improved ASP-FOR-MI: first delete `asa physical status` (case-insensitive
`re.sub`), then label 1 iff some aspirin mention has clean flanks. -/
def riAspForMI (x : List Char) : Nat :=
  let x' := rsub (lit "asa physical status") x
  if (rfind riAspRegex x').any
      (fun m => !rsearch riAspNeg (capGet m.2 1) && !rsearch riAspNeg (capGet m.2 3)) then 1
  else 0

/-! ### rules.py: document cleaning helpers (lines 313-355) -/

/-- `HTML_REGEX`: `&#\d+;`. -/
def htmlRegex : Rx := cat [chr '&', chr '#', plus digitCh, chr ';']

/-- `remove_html_chars`. -/
def removeHtmlChars (doc : List Char) : List Char := rsub htmlRegex doc

/-- Exactly four digits, `\d{4,4}`. -/
def d44 : Rx := .rep digitCh 4 (some 4) false

/-- One or two digits, `\d{1,2}`. -/
def d12 : Rx := .rep digitCh 1 (some 2) false

/-- `DATE1_REGEX`:
`\d{4,4}/\d{1,2}/\d{1,2}|\d{1,2}/\d{1,2}/\d{4,4}|\d{1,2}/\d{1,2}/\d{1,2}|\d{4,4}/\d{1,2}|\d{1,2}/\d{4,4}|\d{1,2}/\d{1,2}|\d{4,4}`. -/
def date1Regex : Rx :=
  alts [cat [d44, chr '/', d12, chr '/', d12], cat [d12, chr '/', d12, chr '/', d44],
    cat [d12, chr '/', d12, chr '/', d12], cat [d44, chr '/', d12], cat [d12, chr '/', d44],
    cat [d12, chr '/', d12], d44]

/-- `DATE2_REGEX`: `\d{1,2}\s+(?:day|week|month|year)s?`. -/
def date2Regex : Rx :=
  cat [d12, plus isPySpace, altsL ["day", "week", "month", "year"], optC 's']

/-- `DATE3_REGEX`: `(?:january|…|december)\s+\d{1,2}`. -/
def date3Regex : Rx :=
  cat [altsL ["january", "february", "march", "april", "may", "june", "july", "august",
    "september", "october", "november", "december"], plus isPySpace, d12]

/-- `remove_dates`: the three date substitutions in order. -/
def removeDates (doc : List Char) : List Char :=
  rsub date3Regex (rsub date2Regex (rsub date1Regex doc))

/-- `get_lines`: split into lines, strip each, drop empty ones, collapse
internal whitespace of the survivors. -/
def getLines (doc : List Char) : List (List Char) :=
  (pySplitlines doc).filterMap (fun line =>
    let l := pyStrip line
    if l.isEmpty then none else some (normSpace l))

/-! ### rules.py: CREATININE

Lines 182-196 (first version, threshold 1.5) and 476-510 (improved
version, threshold 1.4). -/

/-- Baseline `cre`: `cre?\.?(?:atinine)?(?:\s+of)?\s+(\d+\.\d+)` (DOTALL). -/
def raCreRegex : Rx :=
  cat [chr 'c', chr 'r', optC 'e', .rep (fun c => c == '.') 0 (some 1) false,
    opt (lit "atinine"), opt (cat [plus isPySpace, lit "of"]), plus isPySpace,
    .grp 1 (cat [plus digitCh, chr '.', plus digitCh])]

/-- Baseline `creatinine`: `creatinine.{,30}?(\d+\.\d+)` (DOTALL). -/
def raCreatinineRegex : Rx :=
  cat [lit "creatinine", gapL anyCh 30, .grp 1 (cat [plus digitCh, chr '.', plus digitCh])]

/-- Baseline CREATININE extracted values: `cre.findall(x) + creatinine.findall(x)`. -/
def raCreValues (x : List Char) : List ℚ :=
  (rfindall1 raCreRegex x ++ rfindall1 raCreatinineRegex x).map parseFloat

/-- Baseline CREATININE: label 1 iff some extracted value exceeds 1.5. -/
def raCreatinine (x : List Char) : Nat :=
  if (raCreValues x).any (fun v => mkRat 15 10 < v) then 1 else 0

/-- Improved `text`:
`\b(?:creatinine was elevated to|creatinine stable|creatinine \(stat lab\)|cr|cr\.|cre|creatinine)[\s:]([^,;]{1,10})`. -/
def riCreText : Rx :=
  cat [.wordB, alts [lit "creatinine was elevated to", lit "creatinine stable",
    lit "creatinine (stat lab)", lit "cr", lit "cr.", lit "cre", lit "creatinine"],
    .cls (fun c => isPySpace c || c == ':'),
    .grp 1 (.rep (fun c => !(c == ',' || c == ';')) 1 (some 10) false)]

/-- Improved `num`: `\b\d\.\d{1,2}\b`. -/
def riCreNum : Rx := cat [.wordB, .cls digitCh, chr '.', d12, .wordB]

/-- Improved `elevated_creatinine`:
`(?:elevated|rising serum)\b[^.,;:]{1,20}\b(?:creatinine)\b`. -/
def riCreElevated : Rx :=
  cat [alts [lit "elevated", lit "rising serum"], .wordB,
    .rep (fun c => !(c == '.' || c == ',' || c == ';' || c == ':')) 1 (some 20) false,
    .wordB, lit "creatinine", .wordB]

/-- Improved CREATININE document cleaning: drop HTML character references
and dates, then collapse whitespace. -/
def riCreClean (x : List Char) : List Char := normSpace (removeDates (removeHtmlChars x))

/-- Improved CREATININE extracted values: for each `text.findall` capture,
the first `num` match parsed as a float. -/
def riCreValues (x : List Char) : List ℚ :=
  (rfindall1 riCreText (riCreClean x)).filterMap (fun m =>
    match rfindall0 riCreNum m with
    | n :: _ => some (parseFloat n)
    | [] => none)

/-- Improved CREATININE: label 1 iff some extracted value exceeds 1.4 or
the `elevated_creatinine` pattern matches the cleaned document. -/
def riCreatinine (x : List Char) : Nat :=
  if (riCreValues x).any (fun v => mkRat 14 10 < v) || rsearch riCreElevated (riCreClean x) then 1
  else 0

/-! ### rules.py: DIETSUPP-2MOS

Lines 197-207 and 511-527: the two versions compile identical patterns, so
a single embedding serves both. -/

/-- The supplement alternation of `regex` (lines 198 and 518). -/
def dietSuppAlt : Rx :=
  alts [lit "calcium", lit "copper", lit "cyanocobalamin", lit "epogen",
    lit "ferrous gluconate", lit "ferrous sulfate", lit "fish oil", lit "folate", lit "k-dur",
    lit "klor-con", lit "minerals", lit "nephrocaps", lit "niferex", lit "procrit",
    lit "tocopherol", lit "tums", lit "ascorbic acid", lit "folic acid", lit "calcium",
    lit "chromium", lit "iron", lit "magnesium", lit "potassium", lit "selenium", lit "zinc",
    cat [lit "vitamin b", gapG (fun c => c == '-' || isPySpace c) 1, chr '1'],
    cat [lit "vitamin b", gapG (fun c => c == '-' || isPySpace c) 1, chr '2'],
    cat [lit "vitamin b", gapG (fun c => c == '-' || isPySpace c) 1, chr '6'],
    cat [lit "vitamin b", gapG (fun c => c == '-' || isPySpace c) 1, lit "12"],
    cat [lit "vitamin b", gapG (fun c => c == '-' || isPySpace c) 1, lit "100"],
    lit "vitamin c", lit "vitamin e", lit "vitamin g", lit "vitamin h", lit "vitamin m",
    lit "vitamin suppl", lit "mineral suppl", lit "betaxin", lit "niacin",
    cat [chr 'm', optC '.', chr 'v', optC '.', chr 'i', optC '.'], lit "thiamine"]

/-- `regex`: `(.{0,40})\b(supplement alternation)\b(.{0,10})` (no DOTALL). -/
def dietSuppRegex : Rx :=
  cat [.grp 1 (gapG anyNoNL 40), .wordB, .grp 2 dietSuppAlt, .wordB, .grp 3 (gapG anyNoNL 10)]

/-- `regex_left_neg`: `(elevated|high|low|normal|check|past|previous|was|recommend|counsel)`. -/
def dietSuppLeftNeg : Rx :=
  .grp 1 (altsL ["elevated", "high", "low", "normal", "check", "past", "previous", "was",
    "recommend", "counsel"])

/-- The class `[\s\n]` (identical to `\s`). -/
def wsNL : Char → Bool := fun c => isPySpace c || c == '\n'

/-- `regex_right_neg`:
`(\s{3,}|[\s\n]*(is|was|were|of)?[\s\n]*\d+\.\d|[\s\n]*(is|was|were)|[\s\n]*(is|was)?[\s(]*(elevated|high|low|deficien|normal|channel|studies|study|stat|lab))`. -/
def dietSuppRightNeg : Rx :=
  .grp 1 (alts [
    .rep isPySpace 3 none false,
    cat [star wsNL, opt (.grp 2 (altsL ["is", "was", "were", "of"])), star wsNL,
      plus digitCh, chr '.', .cls digitCh],
    cat [star wsNL, .grp 3 (altsL ["is", "was", "were"])],
    cat [star wsNL, opt (.grp 4 (altsL ["is", "was"])),
      star (fun c => isPySpace c || c == '('),
      .grp 5 (altsL ["elevated", "high", "low", "deficien", "normal", "channel", "studies",
        "study", "stat", "lab"])]])

/-- DIETSUPP-2MOS (both versions): label 1 iff some supplement mention has
a left flank free of `regex_left_neg` and a right flank free of
`regex_right_neg`. -/
def dietSupp2Mos (x : List Char) : Nat :=
  if (rfind dietSuppRegex x).any
      (fun m => !rsearch dietSuppLeftNeg (capGet m.2 1) && !rsearch dietSuppRightNeg (capGet m.2 3))
  then 1 else 0

/-! ### rules.py: ENGLISH

Lines 227-240 (first version) and 562-583 (improved version).  `regex1`
(language-speaking) is identical in both; the first version's `regex2`
pairs a person word with a country of origin, while the improved version
replaces it with interpreter/translator patterns. -/

/-- The language alternation of `regex1` (lines 229 and 564). -/
def englishLangWords : List String :=
  ["arabic", "aramaic", "armenian", "bulgarian", "burmese", "cambodian",
   "cantanese", "cantonese", "catonese", "chinese", "creole", "croele",
   "ethiopian", "farsi", "farsti", "french", "greek", "gujarati",
   "haitan", "hindi", "indonesian", "infant", "italian", "japanese",
   "korean", "laotian", "latvian", "loatian", "mandarin", "nonenglish",
   "persian", "polish", "portugese", "portuguese", "romanian", "rusian",
   "russian", "somali", "spainish", "spanish", "thai", "tiawanese",
   "urdu", "vietmanese", "vietnamese", "yiddish"
]

/-- `regex1`: `(?:language|…)[\s-]+(?:speaking)` (both versions). -/
def englishRegex1 : Rx :=
  cat [altsL englishLangWords, plus (fun c => isPySpace c || c == '-'), lit "speaking"]

/-- The country alternation of the first version's `regex2` (line 233). -/
def englishCountryWords : List String :=
  ["afghanistan", "albania", "algeria", "andorra",
   "angola", "antigua", "antigua and barbuda", "argentina",
   "armenia", "australia", "austria", "azerbaijan",
   "bahamas", "bahrain", "bangladesh", "barbados",
   "belarus", "belgium", "belize", "benin",
   "bhutan", "bolivia", "bosnia", "bosnia and herzegovina",
   "botswana", "brazil", "brunei", "bulgaria",
   "burkina", "burkina faso", "burundi", "cabo verde",
   "cape verde", "cape vert", "cambodia", "cambodja",
   "cameroon", "canada", "central african republic", "chad",
   "chile", "china", "colombia", "comoros",
   "congo", "costa rica", "croatia", "cuba",
   "cyprus", "czechia", "côte d\x27ivoire", "ivory coast",
   "korea", "democratic republic of congo", "republic of congo", "denmark",
   "djibouti", "dominica", "dominican republic", "ecuador",
   "egypt", "el salvador", "equatorial guinea", "eritrea",
   "estonia", "ethiopia", "faroe islands", "fiji",
   "finland", "france", "gabon", "gambia",
   "georgia", "germany", "ghana", "greece",
   "grenada", "guatemala", "guinea", "guinea-bissau",
   "guyana", "haiti", "honduras", "hungary",
   "iceland", "india", "indonesia", "iran",
   "iraq", "ireland", "israel", "italy",
   "jamaica", "japan", "jordan", "kazakhstan",
   "kenya", "kiribati", "kuwait", "kyrgyzstan",
   "laos", "latvia", "lebanon", "lesotho",
   "liberia", "libya", "lithuania", "luxembourg",
   "madagascar", "malawi", "malaysia", "maldives",
   "mali", "malta", "mauritania", "mauritius",
   "mexico", "monaco", "mongolia", "montenegro",
   "morocco", "mozambique", "myanmar", "namibia",
   "nauru", "nepal", "netherlands", "new zealand",
   "nicaragua", "niger", "nigeria", "niue",
   "norway", "oman", "pakistan", "palau",
   "panama", "papua new guinea", "papua", "new guinea",
   "paraguay", "peru", "philippines", "poland",
   "portugal", "qatar", "south korea", "north korea",
   "moldova", "romania", "russia", "rwanda",
   "st kitts", "saint kitts", "saint kitts and nevis", "st lucia",
   "saint lucia", "st vincent", "saint vincent", "saint vincent and the grenadines",
   "samoa", "san marino", "sao tome", "saudi arabia",
   "senegal", "serbia", "seychelles", "sierra leone",
   "singapore", "slovakia", "slovenia", "solomon islands",
   "somalia", "south africa", "south sudan", "spain",
   "sri lanka", "sudan", "suriname", "swaziland",
   "sweden", "switzerland", "syria", "tajikistan",
   "thailand", "macedonia", "timor", "timor-leste",
   "togo", "tonga", "trinidad", "trinidad and tobago",
   "tunisia", "turkey", "turkmenistan", "tuvalu",
   "uganda", "ukraine", "uae", "united arab emirates",
   "uk", "united kingdom", "tanzania", "uruguay",
   "uzbekistan", "vanuatu", "venezuela", "vietnam",
   "viet nam", "yemen", "zambia", "zimbabwe"
]

/-- Baseline `regex2`:
`(?:male|woman|lady|patient|pt)[\s]+from[\s]+(the[\s]+)?(country|…)`. -/
def raEnglishRegex2 : Rx :=
  cat [altsL ["male", "woman", "lady", "patient", "pt"], plus isPySpace, lit "from",
    plus isPySpace, opt (.grp 1 (cat [lit "the", plus isPySpace])),
    .grp 2 (altsL englishCountryWords)]

/-- Baseline ENGLISH: label 0 on any language/origin pattern, else 1. -/
def raEnglish (x : List Char) : Nat :=
  if rsearch englishRegex1 x || rsearch raEnglishRegex2 x then 0 else 1

/-- The class `[^.,;]`. -/
def notDotCommaSemi : Char → Bool := fun c => !(c == '.' || c == ',' || c == ';')

/-- Improved `regex2`:
`\b(?:member|members|family)\b[^.,;]{,20}\b(?:interpret|translate|interpreting|translating)\b`. -/
def riEnglishRegex2 : Rx :=
  cat [.wordB, altsL ["member", "members", "family"], .wordB, gapG notDotCommaSemi 20, .wordB,
    altsL ["interpret", "translate", "interpreting", "translating"], .wordB]

/-- Improved `regex3`:
`\b(?:interpreter|translator)\b[^.,;]{,20}\b(?:present|required|necessary)\b`. -/
def riEnglishRegex3 : Rx :=
  cat [.wordB, altsL ["interpreter", "translator"], .wordB, gapG notDotCommaSemi 20, .wordB,
    altsL ["present", "required", "necessary"], .wordB]

/-- Improved ENGLISH: label 0 on any of the three patterns, else 1. -/
def riEnglish (x : List Char) : Nat :=
  if rsearch englishRegex1 x || rsearch riEnglishRegex2 x || rsearch riEnglishRegex3 x then 0
  else 1

/-! ### rules.py: DRUG-ABUSE

Lines 208-226 (first version) and 528-561 (improved version). -/

/-- Baseline history words: `(?:ago|past|prev|prior|history|h/o)`. -/
def raDrugHistWords : List String := ["ago", "past", "prev", "prior", "history", "h/o"]

/-- Baseline drug words: `(?:cocaine|drug|heroin|illicit|substance)`. -/
def raDrugWords : List String := ["cocaine", "drug", "heroin", "illicit", "substance"]

/-- Baseline use words: `(?:abuse|dependence|heavy|smok|use)`. -/
def raUseWords : List String := ["abuse", "dependence", "heavy", "smok", "use"]

/-- Baseline `hist_drug_use`: history, drug, use words with `.{,20}?` gaps (DOTALL). -/
def raHistDrugUse : Rx :=
  cat [altsL raDrugHistWords, gapL anyCh 20, altsL raDrugWords, gapL anyCh 20, altsL raUseWords]

/-- Baseline `hist_use_drug`: history, use, drug words. -/
def raHistUseDrug : Rx :=
  cat [altsL raDrugHistWords, gapL anyCh 20, altsL raUseWords, gapL anyCh 20, altsL raDrugWords]

/-- Baseline `use_drug_hist`: use, drug, history words. -/
def raUseDrugHist : Rx :=
  cat [altsL raUseWords, gapL anyCh 20, altsL raDrugWords, gapL anyCh 20, altsL raDrugHistWords]

/-- Baseline DRUG-ABUSE: label 1 on any of the three patterns, else 0. -/
def raDrugAbuse (x : List Char) : Nat :=
  if rsearch raHistDrugUse x || rsearch raHistUseDrug x || rsearch raUseDrugHist x then 1 else 0

/-- The class `[^.,;:\n]`. -/
def notPunctNL : Char → Bool :=
  fun c => !(c == '.' || c == ',' || c == ';' || c == ':' || c == '\n')

/-- Improved history words:
`(?:ago|past|prev|previous|previously|prior|history|h/o|hx|h/x)`. -/
def riDrugHistWords : List String :=
  ["ago", "past", "prev", "previous", "previously", "prior", "history", "h/o", "hx", "h/x"]

/-- Improved drug words: `(?:crack|cocaine|drug|heroin|illicit|substance)`. -/
def riDrugWords : List String := ["crack", "cocaine", "drug", "heroin", "illicit", "substance"]

/-- Improved use words:
`(?:abuse|abused|dependence|heavy|smoke|smoked|smoking|use|used)`. -/
def riUseWords : List String :=
  ["abuse", "abused", "dependence", "heavy", "smoke", "smoked", "smoking", "use", "used"]

/-- Improved `denies_hist_drug_use`: `\b(?:denies|deny|no)\b` then history,
drug, use words, `\b`-anchored with greedy `[^.,;:\n]{,25}` gaps. -/
def riDeniesHistDrugUse : Rx :=
  cat [.wordB, altsL ["denies", "deny", "no"], .wordB, gapG notPunctNL 25, .wordB,
    altsL riDrugHistWords, .wordB, gapG notPunctNL 25, .wordB, altsL riDrugWords, .wordB,
    gapG notPunctNL 25, .wordB, altsL riUseWords, .wordB]

/-- Improved `denies_hist_use_drug`: denial, history, use, drug words. -/
def riDeniesHistUseDrug : Rx :=
  cat [.wordB, altsL ["denies", "deny", "no"], .wordB, gapG notPunctNL 25, .wordB,
    altsL riDrugHistWords, .wordB, gapG notPunctNL 25, .wordB, altsL riUseWords, .wordB,
    gapG notPunctNL 25, .wordB, altsL riDrugWords, .wordB]

/-- Improved `hist_drug_use`: history, drug, use words. -/
def riHistDrugUse : Rx :=
  cat [.wordB, altsL riDrugHistWords, .wordB, gapG notPunctNL 25, .wordB, altsL riDrugWords,
    .wordB, gapG notPunctNL 25, .wordB, altsL riUseWords, .wordB]

/-- Improved `hist_use_drug`: history, use, drug words. -/
def riHistUseDrug : Rx :=
  cat [.wordB, altsL riDrugHistWords, .wordB, gapG notPunctNL 25, .wordB, altsL riUseWords,
    .wordB, gapG notPunctNL 25, .wordB, altsL riDrugWords, .wordB]

/-- Improved `use_drug_hist`: use, drug, history words. -/
def riUseDrugHist : Rx :=
  cat [.wordB, altsL riUseWords, .wordB, gapG notPunctNL 25, .wordB, altsL riDrugWords,
    .wordB, gapG notPunctNL 25, .wordB, altsL riDrugHistWords, .wordB]

/-- Improved DRUG-ABUSE: denial patterns first (label 0, short-circuit),
then positive history patterns (label 1), default 0. -/
def riDrugAbuse (x : List Char) : Nat :=
  if rsearch riDeniesHistDrugUse x || rsearch riDeniesHistUseDrug x then 0
  else if rsearch riHistDrugUse x || rsearch riHistUseDrug x || rsearch riUseDrugHist x then 1
  else 0

/-! ### rules.py: HBA1C

Lines 241-252 (first version: label 1 iff any extracted value is in
[6.5, 9.5]) and 584-630 (improved version: label 1 iff the last extracted
value is in [6.5, 9.5]).  The float literals 6.5 and 9.5 are written
`mkRat 65 10` and `mkRat 95 10` so that they reduce in the kernel. -/

/-- Baseline `a1c`: `a1c.{,30}?(\d+\.\d+)` (DOTALL). -/
def raA1cRegex : Rx :=
  cat [lit "a1c", gapL anyCh 30, .grp 1 (cat [plus digitCh, chr '.', plus digitCh])]

/-- Baseline HBA1C extracted values. -/
def raHba1cValues (x : List Char) : List ℚ := (rfindall1 raA1cRegex x).map parseFloat

/-- Baseline HBA1C: label 1 iff any extracted value lies in [6.5, 9.5]. -/
def raHba1c (x : List Char) : Nat :=
  if (raHba1cValues x).any (fun f => mkRat 65 10 ≤ f && f ≤ mkRat 95 10) then 1 else 0

/-- Improved `header`: `^date.+(?:a1c|hgbaic|hbaic|hgaic)` (no MULTILINE;
applied to single lines, so `^` is the start of the line). -/
def riHba1cHeader : Rx :=
  cat [.bol, lit "date", plus anyNoNL, altsL ["a1c", "hgbaic", "hbaic", "hgaic"]]

/-- Improved `text`: `(?:a1c|hgbaic|hbaic|hgaic)(.{,50})`. -/
def riHba1cText : Rx :=
  cat [altsL ["a1c", "hgbaic", "hbaic", "hgaic"], .grp 1 (gapG anyNoNL 50)]

/-- Improved `num`: `(\d{1,2}(?:\.\d{1,2})?)`. -/
def riHba1cNum : Rx := .grp 1 (cat [d12, opt (cat [chr '.', d12])])

/-- One pass of the improved HBA1C line loop.  The Boolean records whether
the previous line matched the header pattern, in which case the first
number of the current line is taken whole. -/
def riHba1cScan : List (List Char) → Bool → List ℚ
  | [], _ => []
  | line :: rest, prevHdr =>
    if prevHdr then
      (match rfindall1 riHba1cNum line with
       | m :: _ => [parseFloat m]
       | [] => []) ++ riHba1cScan rest false
    else if rsearch riHba1cHeader line then riHba1cScan rest true
    else
      ((rfindall1 riHba1cText line).filterMap (fun m =>
        let m1 := (m.takeWhile (fun c => c ≠ ';')).takeWhile (fun c => c ≠ ',')
        match rfindall1 riHba1cNum m1 with
        | n :: _ => some (parseFloat n)
        | [] => none)) ++ riHba1cScan rest false

/-- Improved HBA1C extracted values: clean the document, walk its lines. -/
def riHba1cValues (x : List Char) : List ℚ :=
  riHba1cScan (getLines (removeDates (removeHtmlChars x))) false

/-- Improved HBA1C: label 1 iff the last extracted value lies in [6.5, 9.5]. -/
def riHba1c (x : List Char) : Nat :=
  match (riHba1cValues x).getLast? with
  | some lv => if mkRat 65 10 ≤ lv ∧ lv ≤ mkRat 95 10 then 1 else 0
  | none => 0

/-! ### rules.py: KETO-1YR

Lines 253-271 and 631-650: the two versions compile identical patterns, so
a single embedding serves both. -/

/-- `no_keto`: `no.{,30}?(?:dka|ketones|ketoacidosis)` (DOTALL). -/
def ketoNoKeto : Rx := cat [lit "no", gapL anyCh 30, altsL ["dka", "ketones", "ketoacidosis"]]

/-- `keto`: `(?:ketones\s+pos)|(?:ketoacidosis)`. -/
def ketoKeto : Rx :=
  .alt (cat [lit "ketones", plus isPySpace, lit "pos"]) (lit "ketoacidosis")

/-- KETO-1YR (both versions): negative pattern first (label 0,
short-circuit), then positive pattern (label 1), default 0. -/
def keto1Yr (x : List Char) : Nat :=
  if rsearch ketoNoKeto x then 0
  else if rsearch ketoKeto x then 1
  else 0

/-! ### rules.py: MAKES-DECISIONS

Lines 272-298 (first version, five negative patterns) and 656-698
(improved version, nine negative patterns).  Both default to label 1. -/

/-- Baseline `regex1`:
`(?:daughter|wife|husband|family|niece|father|mother|son|brother|sister|sibling).{,20}?make.{,20}?decision` (DOTALL). -/
def raMkdRegex1 : Rx :=
  cat [altsL ["daughter", "wife", "husband", "family", "niece", "father", "mother", "son",
    "brother", "sister", "sibling"], gapL anyCh 20, lit "make", gapL anyCh 20, lit "decision"]

/-- Baseline `regex2`: `(?:pt|patient).{,20}?no.{,20}?make.{,20}?decision`. -/
def raMkdRegex2 : Rx :=
  cat [altsL ["pt", "patient"], gapL anyCh 20, lit "no", gapL anyCh 20, lit "make",
    gapL anyCh 20, lit "decision"]

/-- Baseline `regex3`: `mental.{,20}?retardation`. -/
def raMkdRegex3 : Rx := cat [lit "mental", gapL anyCh 20, lit "retardation"]

/-- Baseline `regex4`: `(?:confus|depress|altered|wors|bad).{,20}?mental.{,20}?status`. -/
def raMkdRegex4 : Rx :=
  cat [altsL ["confus", "depress", "altered", "wors", "bad"], gapL anyCh 20, lit "mental",
    gapL anyCh 20, lit "status"]

/-- Baseline `regex5`: `(?:pt|patient).{,20}?intubat`. -/
def raMkdRegex5 : Rx := cat [altsL ["pt", "patient"], gapL anyCh 20, lit "intubat"]

/-- Baseline MAKES-DECISIONS: label 0 on any negative pattern, else 1. -/
def raMakesDecisions (x : List Char) : Nat :=
  if rsearch raMkdRegex1 x || rsearch raMkdRegex2 x || rsearch raMkdRegex3 x ||
      rsearch raMkdRegex4 x || rsearch raMkdRegex5 x then 0
  else 1

/-- Improved `regex1`: `\b(?:daughter|wife|husband|family|niece|father|mother|son|brother|sister|sibling)\b[^.,;]{,20}(?:make|makes)\b[^.,;]{,20}\b(?:decision|decisions)\b`. -/
def riMkdRegex1 : Rx :=
  cat [.wordB, altsL ["daughter", "wife", "husband", "family", "niece", "father", "mother",
    "son", "brother", "sister", "sibling"], .wordB, gapG notDotCommaSemi 20,
    altsL ["make", "makes"], .wordB, gapG notDotCommaSemi 20, .wordB,
    altsL ["decision", "decisions"], .wordB]

/-- Improved `regex2`: `\b(?:pt|patient)\b[^.,;]{,20}\b(?:not)\b[^.,;]{,20}\b(?:make|makes)\b[^.,;]{,20}\b(?:decision|decisions)\b`. -/
def riMkdRegex2 : Rx :=
  cat [.wordB, altsL ["pt", "patient"], .wordB, gapG notDotCommaSemi 20, .wordB, lit "not",
    .wordB, gapG notDotCommaSemi 20, .wordB, altsL ["make", "makes"], .wordB,
    gapG notDotCommaSemi 20, .wordB, altsL ["decision", "decisions"], .wordB]

/-- Improved `regex3`: `\b(?:mental)\b[^.,;]{,20}\b(?:retardation)\b`. -/
def riMkdRegex3 : Rx :=
  cat [.wordB, lit "mental", .wordB, gapG notDotCommaSemi 20, .wordB, lit "retardation", .wordB]

/-- Improved `regex4`: `\b(?:confusion|confused|depression|depressed|worst|worse|bad)\b[^.,;]{,20}\b(?:mental)[^.,;]{,20}\b(?:status)\b`. -/
def riMkdRegex4 : Rx :=
  cat [.wordB, altsL ["confusion", "confused", "depression", "depressed", "worst", "worse",
    "bad"], .wordB, gapG notDotCommaSemi 20, .wordB, lit "mental", gapG notDotCommaSemi 20,
    .wordB, lit "status", .wordB]

/-- Improved `regex5`: `\b(?:consult|appointment)\b[^.,;]{,20}\b(?:neuro|psych|psychiatric)[^.,;]{,20}\b(?:dementia|alzheimer)\b`. -/
def riMkdRegex5 : Rx :=
  cat [.wordB, altsL ["consult", "appointment"], .wordB, gapG notDotCommaSemi 20, .wordB,
    altsL ["neuro", "psych", "psychiatric"], gapG notDotCommaSemi 20, .wordB,
    altsL ["dementia", "alzheimer"], .wordB]

/-- Improved `regex6`: `\b(?:pt|patient)\b[^.,;]{,20}\b(?:diagnosed|dx)[^.,;]{,20}\b(?:dementia|alzheimer)\b`. -/
def riMkdRegex6 : Rx :=
  cat [.wordB, altsL ["pt", "patient"], .wordB, gapG notDotCommaSemi 20, .wordB,
    altsL ["diagnosed", "dx"], gapG notDotCommaSemi 20, .wordB,
    altsL ["dementia", "alzheimer"], .wordB]

/-- Improved `regex7`: `\b(?:severe)\b[^.,;]{,20}\b(?:dementia|alzheimer)\b`. -/
def riMkdRegex7 : Rx :=
  cat [.wordB, lit "severe", .wordB, gapG notDotCommaSemi 20, .wordB,
    altsL ["dementia", "alzheimer"], .wordB]

/-- Improved `regex8`: `\b(?:unable|not able)\b[^.,;]{,20}\b(?:answer)\b[^.,;]{,20}\b(?:question|questions)\b`. -/
def riMkdRegex8 : Rx :=
  cat [.wordB, altsL ["unable", "not able"], .wordB, gapG notDotCommaSemi 20, .wordB,
    lit "answer", .wordB, gapG notDotCommaSemi 20, .wordB,
    altsL ["question", "questions"], .wordB]

/-- Improved `regex9`: `\b(?:pt|patient)\b[^.,;]{,20}\b(?:not)\b[^.,;]{,20}\b[^.,;]{,20}\b(?:acting|speaking|communicating)\b[^.,;]{,20}\b(?:himself|herself|self)\b`. -/
def riMkdRegex9 : Rx :=
  cat [.wordB, altsL ["pt", "patient"], .wordB, gapG notDotCommaSemi 20, .wordB, lit "not",
    .wordB, gapG notDotCommaSemi 20, .wordB, gapG notDotCommaSemi 20, .wordB,
    altsL ["acting", "speaking", "communicating"], .wordB, gapG notDotCommaSemi 20, .wordB,
    altsL ["himself", "herself", "self"], .wordB]

/-- Improved MAKES-DECISIONS: label 0 on any negative pattern, else 1. -/
def riMakesDecisions (x : List Char) : Nat :=
  if rsearch riMkdRegex1 x || rsearch riMkdRegex2 x || rsearch riMkdRegex3 x ||
      rsearch riMkdRegex4 x || rsearch riMkdRegex5 x || rsearch riMkdRegex6 x ||
      rsearch riMkdRegex7 x || rsearch riMkdRegex8 x || rsearch riMkdRegex9 x then 0
  else 1

/-! ### rules.py: MI-6MOS

Lines 299-308 (first version) and 699-708 (improved version). -/

/-- Baseline `regex_mi`: `(.{0,40})\b(mi words)\b(.{0,20})` (no DOTALL). -/
def raMi6Regex : Rx := cadRegexMI

/-- The alternative `s\\?p`: literal `s`, optional literal backslash, `p`. -/
def sBackslashP : Rx := cat [chr 's', .rep (fun c => c == '\\') 0 (some 1) false, chr 'p']

/-- The alternative `s/?p`: literal `s`, optional slash, `p`. -/
def sSlashP : Rx := cat [chr 's', .rep (fun c => c == '/') 0 (some 1) false, chr 'p']

/-- Baseline `regex_neg` (line 301):
`\b(rule-out|rule out|ruled out|ruling out|r\\?o|old|past|prior|post|s\\?p|s/?p|no|not|negative|free|unlikely|any|absence|absent|had|father|mother|dad|mom|grandfather|grandmother|brother|sister|son|daughter|family|fh|history)\b`. -/
def raMi6Neg : Rx :=
  cat [.wordB, .grp 1 (alts [lit "rule-out", lit "rule out", lit "ruled out",
    lit "ruling out", rBackslashO, lit "old", lit "past", lit "prior", lit "post",
    sBackslashP, sSlashP, lit "no", lit "not", lit "negative", lit "free", lit "unlikely",
    lit "any", lit "absence", lit "absent", lit "had", lit "father", lit "mother", lit "dad",
    lit "mom", lit "grandfather", lit "grandmother", lit "brother", lit "sister", lit "son",
    lit "daughter", lit "family", lit "fh", lit "history"]), .wordB]

/-- Baseline MI-6MOS: label 1 iff some MI mention has both flanks free of
the negation vocabulary. -/
def raMi6Mos (x : List Char) : Nat :=
  if cadFlankEv raMi6Regex 1 3 raMi6Neg x then 1 else 0

/-- Improved `regex_mi`: `(.{0,40})\b(mi words)\b(.{0,20})` with DOTALL. -/
def riMi6Regex : Rx :=
  cat [.grp 1 (gapG anyCh 40), .wordB, .grp 2 (altsL miWords), .wordB, .grp 3 (gapG anyCh 20)]

/-- Improved `regex_neg` (line 701): the baseline list with `s/p` (no
optional slash), `r/o` absent but `\w{,2}story`, `\w{,2}hx` and `flow` in
place of `history`:
`\b(rule-out|rule out|ruled out|ruling out|r\\?o|r/o|old|past|prior|post|s\\?p|s/p|no|not|negative|free|unlikely|any|absence|absent|had|father|mother|dad|mom|grandfather|grandmother|brother|sister|son|daughter|family|fh|\w{,2}story|\w{,2}hx|flow)\b`. -/
def riMi6Neg : Rx :=
  cat [.wordB, .grp 1 (alts [lit "rule-out", lit "rule out", lit "ruled out",
    lit "ruling out", rBackslashO, lit "r/o", lit "old", lit "past", lit "prior", lit "post",
    sBackslashP, lit "s/p", lit "no", lit "not", lit "negative", lit "free", lit "unlikely",
    lit "any", lit "absence", lit "absent", lit "had", lit "father", lit "mother", lit "dad",
    lit "mom", lit "grandfather", lit "grandmother", lit "brother", lit "sister", lit "son",
    lit "daughter", lit "family", lit "fh", cat [gapG isWordCh 2, lit "story"],
    cat [gapG isWordCh 2, lit "hx"], lit "flow"]), .wordB]

/-- Improved MI-6MOS: label 1 iff some MI mention has both flanks free of
the negation vocabulary. -/
def riMi6Mos (x : List Char) : Nat :=
  if cadFlankEv riMi6Regex 1 3 riMi6Neg x then 1 else 0

/-! ### rules.py: the improved classifier's predict dispatch

`ImprovedRuleBasedClassifier.predict` (lines 360-710) asserts
`tag in TAGS` and then branches on the tag.  The `ABDOMINAL` and
`MAJOR-DIABETES` branches execute `assert False`: the call raises and no
label list is produced, which the embedding renders as `none`. -/

/-- The 13 criterion names (`reader.TAGS`, reader.py lines 68-82). -/
inductive Tag where
  | ABDOMINAL | ADVANCED_CAD | ALCOHOL_ABUSE | ASP_FOR_MI | CREATININE | DIETSUPP_2MOS
  | DRUG_ABUSE | ENGLISH | HBA1C | KETO_1YR | MAJOR_DIABETES | MAKES_DECISIONS | MI_6MOS
deriving DecidableEq, Fintype

/-- The tag list in the evaluator's order. -/
def allTags : List Tag :=
  [.ABDOMINAL, .ADVANCED_CAD, .ALCOHOL_ABUSE, .ASP_FOR_MI, .CREATININE, .DIETSUPP_2MOS,
   .DRUG_ABUSE, .ENGLISH, .HBA1C, .KETO_1YR, .MAJOR_DIABETES, .MAKES_DECISIONS, .MI_6MOS]

/-- `ImprovedRuleBasedClassifier.predict`, parametrized by the contents of
the CAD drug-list file.  `none` models a raised `AssertionError`
(`assert False`), `some ys` a returned label list. -/
def predictImp (cadDrugs : List String) (tag : Tag) (X : List (List Char)) :
    Option (List Nat) :=
  match tag with
  | .ABDOMINAL => none
  | .ADVANCED_CAD => some (X.map (riAdvancedCAD cadDrugs))
  | .ALCOHOL_ABUSE => some (X.map riAlcoholAbuse)
  | .ASP_FOR_MI => some (X.map riAspForMI)
  | .CREATININE => some (X.map riCreatinine)
  | .DIETSUPP_2MOS => some (X.map dietSupp2Mos)
  | .DRUG_ABUSE => some (X.map riDrugAbuse)
  | .ENGLISH => some (X.map riEnglish)
  | .HBA1C => some (X.map riHba1c)
  | .KETO_1YR => some (X.map keto1Yr)
  | .MAJOR_DIABETES => none
  | .MAKES_DECISIONS => some (X.map riMakesDecisions)
  | .MI_6MOS => some (X.map riMi6Mos)

/-! ### evaluator.py -/

/-- `tp_tn_fp_fn` (evaluator.py lines 45-92): zip the two label vectors
and count true/false positives/negatives.  The source asserts every label
is 0 or 1; theorems carry that as a hypothesis. -/
def tpTnFpFn : List Nat → List Nat → Nat × Nat × Nat × Nat
  | t :: ts, p :: ps =>
    let c := tpTnFpFn ts ps
    if t = 1 ∧ p = 1 then (c.1 + 1, c.2.1, c.2.2.1, c.2.2.2)
    else if t = 0 ∧ p = 0 then (c.1, c.2.1 + 1, c.2.2.1, c.2.2.2)
    else if t = 0 ∧ p = 1 then (c.1, c.2.1, c.2.2.1 + 1, c.2.2.2)
    else if t = 1 ∧ p = 0 then (c.1, c.2.1, c.2.2.1, c.2.2.2 + 1)
    else (c.1, c.2.1, c.2.2.1, c.2.2.2)
  | _, _ => (0, 0, 0, 0)

/-- `tpr` (lines 95-122): recall, 0.0 on a zero denominator. -/
def tpr (tp tn fp fn : Nat) : ℚ :=
  if tp + fn = 0 then 0 else (tp : ℚ) / ((tp : ℚ) + (fn : ℚ))

/-- `ppv` (lines 215-242): precision, 0.0 on a zero denominator. -/
def ppv (tp tn fp fn : Nat) : ℚ :=
  if tp + fp = 0 then 0 else (tp : ℚ) / ((tp : ℚ) + (fp : ℚ))

/-- `f1` (lines 301-328): the `try` block computes precision, recall and
their harmonic mean; any `ZeroDivisionError` (zero denominator for
precision, for recall, or a zero precision+recall sum) yields 0.0. -/
def f1 (tp tn fp fn : Nat) : ℚ :=
  if tp + fp = 0 then 0
  else if tp + fn = 0 then 0
  else
    let pr : ℚ := (tp : ℚ) / ((tp : ℚ) + (fp : ℚ))
    let rc : ℚ := (tp : ℚ) / ((tp : ℚ) + (fn : ℚ))
    if pr + rc = 0 then 0
    else 2 * (pr * rc) / (pr + rc)

/-- `evaluate`'s `invert` (line 437): `int(not elem)` maps 0 to 1 and any
non-zero label to 0. -/
def invert (l : List Nat) : List Nat := l.map (fun e => if e = 0 then 1 else 0)

/-- One per-(tag, polarity) cell of the `metrics` dictionary. -/
structure TagMetrics where
  TP : Nat
  TN : Nat
  FP : Nat
  FN : Nat
  PPV : ℚ
  TPR : ℚ
  F1 : ℚ
deriving DecidableEq

/-- Confusion counts and derived scores of one label-vector pair
(lines 473-480 and 485-492). -/
def mkMetrics (tl pl : List Nat) : TagMetrics :=
  let c := tpTnFpFn tl pl
  { TP := c.1, TN := c.2.1, FP := c.2.2.1, FN := c.2.2.2,
    PPV := ppv c.1 c.2.1 c.2.2.1 c.2.2.2,
    TPR := tpr c.1 c.2.1 c.2.2.1 c.2.2.2,
    F1 := f1 c.1 c.2.1 c.2.2.1 c.2.2.2 }

/-- The `met` cell of a tag: true labels against predicted labels.
A corpus enters the evaluator only through its per-tag label vectors
(`Corpus.get_labels`), so corpora are embedded as functions `Tag → List Nat`. -/
def metCell (tls pls : Tag → List Nat) (tag : Tag) : TagMetrics :=
  mkMetrics (tls tag) (pls tag)

/-- The `not met` cell of a tag: both label vectors inverted (lines 483-485). -/
def notMetCell (tls pls : Tag → List Nat) (tag : Tag) : TagMetrics :=
  mkMetrics (invert (tls tag)) (invert (pls tag))

/-- The per-tag `overall` F1: mean of the met and not-met F1 (lines 494-497). -/
def tagOverallF1 (tls pls : Tag → List Nat) (tag : Tag) : ℚ :=
  ((metCell tls pls tag).F1 + (notMetCell tls pls tag).F1) / 2

/-- Micro aggregation (lines 500-526): pool the confusion counts of all 13
tags for one polarity, then derive the scores once. -/
def microCell (cell : Tag → TagMetrics) : TagMetrics :=
  let tp := (allTags.map (fun t => (cell t).TP)).sum
  let tn := (allTags.map (fun t => (cell t).TN)).sum
  let fp := (allTags.map (fun t => (cell t).FP)).sum
  let fn := (allTags.map (fun t => (cell t).FN)).sum
  { TP := tp, TN := tn, FP := fp, FN := fn,
    PPV := ppv tp tn fp fn, TPR := tpr tp tn fp fn, F1 := f1 tp tn fp fn }

/-- The micro `overall` F1 (lines 528-531). -/
def microOverallF1 (tls pls : Tag → List Nat) : ℚ :=
  ((microCell (metCell tls pls)).F1 + (microCell (notMetCell tls pls)).F1) / 2

/-- Macro aggregation of F1 (lines 534-554): the mean of the 13 per-tag
F1 values of one polarity.  (The source averages PPV and TPR the same
way.) -/
def macF1 (cell : Tag → TagMetrics) : ℚ :=
  (allTags.map (fun t => (cell t).F1)).sum / (allTags.length : ℚ)

/-- The macro `overall` F1 (lines 556-559). -/
def macOverallF1 (tls pls : Tag → List Nat) : ℚ :=
  (macF1 (metCell tls pls) + macF1 (notMetCell tls pls)) / 2

/-! ### reader.py: the lab-table Extractor (lines 765-821) -/

/-- `REGEX_CURRENT_LINE.sub(' ', …)`: collapse every run of spaces/tabs to
a single space. -/
def collapseWS : List Char → List Char
  | [] => []
  | [c] => if isSpTab c then [' '] else [c]
  | c :: d :: t =>
    if isSpTab c then
      if isSpTab d then collapseWS (d :: t) else ' ' :: collapseWS (d :: t)
    else c :: collapseWS (d :: t)

/-- `REGEX_ROW` (line 768):
`\w+[ ]*[(]?\w*[ ]*\w*[)]?[ \t]+[<]?\d+(([ ]*[A-Za-z])|([.]?\d*[LH]?))[ \t]+[(]*\d+\.*\d*-\d+\.*\d*[)]*[ \t]+`. -/
def REGEX_ROW : Rx :=
  cat [plus isWordCh, star (fun c => c == ' '), .rep (fun c => c == '(') 0 (some 1) false,
    star isWordCh, star (fun c => c == ' '), star isWordCh,
    .rep (fun c => c == ')') 0 (some 1) false, plus isSpTab,
    .rep (fun c => c == '<') 0 (some 1) false, plus digitCh,
    .grp 1 (.alt
      (.grp 2 (cat [star (fun c => c == ' '), .cls Char.isAlpha]))
      (.grp 3 (cat [.rep (fun c => c == '.') 0 (some 1) false, star digitCh,
        .rep (fun c => c.toLower == 'l' || c.toLower == 'h') 0 (some 1) false]))),
    plus isSpTab, star (fun c => c == '('), plus digitCh, star (fun c => c == '.'),
    star digitCh, chr '-', plus digitCh, star (fun c => c == '.'), star digitCh,
    star (fun c => c == ')'), plus isSpTab]

/-- `REGEX_KEY` (line 769): `[ \t]+[<]?\d+`. -/
def REGEX_KEY : Rx :=
  cat [plus isSpTab, .rep (fun c => c == '<') 0 (some 1) false, plus digitCh]

/-- `REGEX_CURRENT_VALUE` (line 770): `\d+[.]?\d*`. -/
def REGEX_CURRENT_VALUE : Rx :=
  cat [plus digitCh, .rep (fun c => c == '.') 0 (some 1) false, star digitCh]

/-- `REGEX_MIN_MAX` (line 771): `\d+[.]?\d*-\d+[.]?\d*`. -/
def REGEX_MIN_MAX : Rx :=
  cat [plus digitCh, .rep (fun c => c == '.') 0 (some 1) false, star digitCh, chr '-',
    plus digitCh, .rep (fun c => c == '.') 0 (some 1) false, star digitCh]

/-- The test-name canonicalization chain of `__extract` (lines 786-805):
sixteen case-sensitive `str.replace` calls, in source order. -/
def rowCanon (l : List Char) : List Char :=
  let l := replaceAll "Absolute".data "Abs".data l
  let l := replaceAll "Isoenzymes".data "Isoenz".data l
  let l := replaceAll "Carbon Dioxide".data "CO2".data l
  let l := replaceAll "Bilirubin(Total)".data "Total Bilirubin".data l
  let l := replaceAll "Bilirubin(Direct".data "Direct Bilirubin".data l
  let l := replaceAll "Bilirubin(Direct)".data "Direct Bilirubin".data l
  let l := replaceAll " (Stat Lab)".data "".data l
  let l := replaceAll "Plasma ".data "".data l
  let l := replaceAll "Blood Urea Nitro".data "Urea Nitro".data l
  let l := replaceAll "UREA N".data "Urea Nitro".data l
  let l := replaceAll "Neutrophils - Au".data "Neutrophils".data l
  let l := replaceAll "Neutrophils - Ma".data "Neutrophils".data l
  let l := replaceAll "Lymphocytes - Au".data "Lymphocytes".data l
  let l := replaceAll "Lymphocytes - Ma".data "Lymphocytes".data l
  let l := replaceAll "Monocytes - Manu".data "Monocytes".data l
  let l := replaceAll "Monocytes - Auto".data "Monocytes".data l
  let l := replaceAll "Eosinophils - Ma".data "Eosinophils".data l
  let l := replaceAll "Eosinophils - Au".data "Eosinophils".data l
  let l := replaceAll "Basophils - Manu".data "Basophils".data l
  let l := replaceAll "Basophils - Auto".data "Basophils".data l
  l

/-- The current line as `__extract` prepares it: strip, then collapse
space/tab runs. -/
def extractorLine (line : List Char) : List Char := collapseWS (pyStrip line)

/-- Does `__extract` classify this record line as a table row? -/
def isRowLine (line : List Char) : Bool := rsearch REGEX_ROW (extractorLine line)

/-- `REGEX_KEY.split(current_line)[0]`: the key of a table row. -/
def extractorKey (cl : List Char) : List Char := rsplit0 REGEX_KEY cl

/-- `float(REGEX_CURRENT_VALUE.search(current_line).group(0))`: the value
of a table row; `none` models the `AttributeError` raised when the search
fails. -/
def extractorVal (cl : List Char) : Option ℚ :=
  (rnext REGEX_CURRENT_VALUE none cl).map (fun y => parseFloat y.2.1)

/-- `float(REGEX_MIN_MAX.search(current_line).group(0).split('-')[i])` for
`i = 0, 1`: the reference range of a table row; `none` models the raised
`AttributeError` when the search fails. -/
def extractorRange (cl : List Char) : Option (ℚ × ℚ) :=
  (rnext REGEX_MIN_MAX none cl).map (fun y =>
    let parts := y.2.1.splitOn '-'
    (parseFloat (parts.getD 0 []), parseFloat (parts.getD 1 [])))

/-- The table entry `__extract` produces from one record line, when the
line is classified as a table row: the canonicalized line's key, value and
range.  `none` when the line is not a table row, or when the value or
range pattern fails to match (a raised `AttributeError`). -/
def extractEntry (line : List Char) : Option (List Char × ℚ × ℚ × ℚ) :=
  if rsearch REGEX_ROW (extractorLine line) then
    match extractorVal (rowCanon (extractorLine line)),
        extractorRange (rowCanon (extractorLine line)) with
    | some v, some lohi =>
      some (extractorKey (rowCanon (extractorLine line)), v, lohi.1, lohi.2)
    | _, _ => none
  else none

/-! ### Spec-side readings of the extractor row fields

The specification describes the three fields of a table entry in prose;
the following definitions translate that prose directly, independently of
the regex engine, so that they can be compared with the source-side
definitions above. -/

/-- Is the head of the list a digit? -/
def digitHead : List Char → Bool
  | d :: _ => digitCh d
  | [] => false

/-- Does an optional `<` followed by a digit start here? -/
def ltDigitHere : List Char → Bool
  | d :: v => if d == '<' then digitHead v else digitCh d
  | [] => false

/-- Does a run of whitespace followed by an optional `<` and a digit start
at this position?  (The prose description of where the key ends.) -/
def keyCutHere : List Char → Bool
  | c :: t => isSpTab c && ltDigitHere (t.dropWhile isSpTab)
  | [] => false

/-- Everything in the line before the first run of whitespace followed by
an optional `<` and digits: the spec's reading of the key. -/
def specKey : List Char → List Char
  | [] => []
  | c :: t => if keyCutHere (c :: t) then [] else c :: specKey t

/-- Maximal run of digits, optionally followed by a dot and a further
maximal run of digits, at the head of the line. -/
def scanNum (s : List Char) : List Char :=
  let ds := s.takeWhile digitCh
  match s.dropWhile digitCh with
  | '.' :: r2 => ds ++ '.' :: r2.takeWhile digitCh
  | _ => ds

/-- The first number in the line read directly: at the first digit of the
line, digits with an optional decimal part, parsed.  This is the amended
reading of the value — the digit run may start anywhere, also inside the
test-name token. -/
def specFirstNum : List Char → Option ℚ
  | [] => none
  | c :: t => if digitCh c then some (parseFloat (scanNum (c :: t))) else specFirstNum t

/-- Is this whitespace-delimited token a standalone number (digits with an
optional decimal part and nothing else)? -/
def isNumToken (w : List Char) : Bool :=
  match w.takeWhile Char.isDigit, w.dropWhile Char.isDigit with
  | [], _ => false
  | _, [] => true
  | _, '.' :: r => r.all Char.isDigit
  | _, _ => false

/-- The first standalone number of the line: the first whitespace-delimited
token that is entirely a number, parsed.  This is the claim's original
reading of the value. -/
def firstStandaloneNum (s : List Char) : Option ℚ :=
  ((pyWords s).filter isNumToken).head?.map parseFloat

/-! ### Claim theorems -/

/-- C6: for all non-negative integer confusion counts, `ppv` returns 0
when `tp+fp = 0`, `tpr` returns 0 when `tp+fn = 0`, and `f1` returns 0
whenever the precision or the recall is 0; the zero-denominator cases are
total (the `except ZeroDivisionError` fallbacks), not errors. -/
theorem c6_zero_denominator_metrics (tp tn fp fn : Nat) :
    (tp + fp = 0 → ppv tp tn fp fn = 0) ∧
    (tp + fn = 0 → tpr tp tn fp fn = 0) ∧
    ((ppv tp tn fp fn = 0 ∨ tpr tp tn fp fn = 0) → f1 tp tn fp fn = 0) := by
  refine ⟨fun h => by simp [ppv, h], fun h => by simp [tpr, h], fun h => ?_⟩
  by_cases hfp : tp + fp = 0
  · simp [f1, hfp]
  · by_cases hfn : tp + fn = 0
    · simp [f1, hfp, hfn]
    · have htp : tp = 0 := by
        have dfp : ((tp : ℚ) + (fp : ℚ)) ≠ 0 := by
          have : ((tp + fp : ℕ) : ℚ) ≠ 0 := Nat.cast_ne_zero.mpr hfp
          push_cast at this
          exact this
        have dfn : ((tp : ℚ) + (fn : ℚ)) ≠ 0 := by
          have : ((tp + fn : ℕ) : ℚ) ≠ 0 := Nat.cast_ne_zero.mpr hfn
          push_cast at this
          exact this
        rcases h with h | h
        · rw [ppv, if_neg hfp] at h
          rcases div_eq_zero_iff.mp h with h0 | h0
          · exact_mod_cast h0
          · exact absurd h0 dfp
        · rw [tpr, if_neg hfn] at h
          rcases div_eq_zero_iff.mp h with h0 | h0
          · exact_mod_cast h0
          · exact absurd h0 dfn
      subst htp
      simp [f1, hfp, hfn]

/-- Closed instance of C6 with every hypothesis discharged at concrete
counts. -/
theorem c6_zero_denominator_metrics_witness :
    (0 : ℕ) + 0 = 0 ∧ ppv 0 3 0 5 = 0 ∧ tpr 0 3 0 0 = 0 ∧ f1 0 3 0 5 = 0 :=
  ⟨rfl, (c6_zero_denominator_metrics 0 3 0 5).1 rfl,
    (c6_zero_denominator_metrics 0 3 0 0).2.1 rfl,
    (c6_zero_denominator_metrics 0 3 0 5).2.2 (Or.inl ((c6_zero_denominator_metrics 0 3 0 5).1 rfl))⟩

/-- C7: inverting both equal-length binary label vectors swaps the roles
of the confusion counts: TP and TN exchange, FP and FN exchange. -/
theorem c7_invert_swaps_counts (t p : List Nat)
    (ht : ∀ x ∈ t, x = 0 ∨ x = 1) (hp : ∀ x ∈ p, x = 0 ∨ x = 1)
    (hl : t.length = p.length) :
    (tpTnFpFn (invert t) (invert p)).1 = (tpTnFpFn t p).2.1 ∧
    (tpTnFpFn (invert t) (invert p)).2.1 = (tpTnFpFn t p).1 ∧
    (tpTnFpFn (invert t) (invert p)).2.2.1 = (tpTnFpFn t p).2.2.2 ∧
    (tpTnFpFn (invert t) (invert p)).2.2.2 = (tpTnFpFn t p).2.2.1 := by
  clear hl
  induction t generalizing p with
  | nil => cases p <;> simp [tpTnFpFn, invert]
  | cons a t ih =>
    cases p with
    | nil => simp [tpTnFpFn, invert]
    | cons b p =>
      have ha := ht a (by simp)
      have hb := hp b (by simp)
      obtain ⟨i1, i2, i3, i4⟩ :=
        ih p (fun x hx => ht x (List.mem_cons_of_mem _ hx))
          (fun x hx => hp x (List.mem_cons_of_mem _ hx))
      rcases ha with rfl | rfl <;> rcases hb with rfl | rfl <;>
        simp [invert, tpTnFpFn] at i1 i2 i3 i4 ⊢ <;> omega

/-- Closed instance of C7 at a concrete binary vector pair. -/
theorem c7_invert_swaps_counts_witness :
    (tpTnFpFn (invert [1, 0, 1, 0]) (invert [1, 1, 0, 0])).1 =
      (tpTnFpFn [1, 0, 1, 0] [1, 1, 0, 0]).2.1 :=
  (c7_invert_swaps_counts [1, 0, 1, 0] [1, 1, 0, 0] (by decide) (by decide) rfl).1

/-- C5: for every drug list and every document list, the improved
classifier's predict fails (`assert False`, embedded as `none`) on
ABDOMINAL and on MAJOR-DIABETES: it never returns a label list, and in
particular not the all-zero "no evidence" list — while a supported
criterion such as KETO-1YR always returns a label list. -/
theorem c5_unsupported_tags_fail (cadDrugs : List String) (X : List (List Char)) :
    predictImp cadDrugs .ABDOMINAL X = none ∧
    predictImp cadDrugs .MAJOR_DIABETES X = none ∧
    (∀ ys : List Nat, predictImp cadDrugs .ABDOMINAL X ≠ some ys) ∧
    (∀ ys : List Nat, predictImp cadDrugs .MAJOR_DIABETES X ≠ some ys) ∧
    predictImp cadDrugs .ABDOMINAL X ≠ some (X.map (fun _ => 0)) ∧
    predictImp cadDrugs .MAJOR_DIABETES X ≠ some (X.map (fun _ => 0)) ∧
    (predictImp cadDrugs .KETO_1YR X).isSome = true := by
  refine ⟨rfl, rfl, fun ys => by simp [predictImp], fun ys => by simp [predictImp],
    by simp [predictImp], by simp [predictImp], rfl⟩

/-- C1: for ALCOHOL-ABUSE in both rule-set versions, a document matched by
any negative-evidence pattern is labeled 0 — the negative patterns are
checked first and short-circuit, so this holds even when a positive
pattern also matches; and the two spec documents get labels 0 and 1. -/
theorem c1_alcohol_negation_precedence :
    (∀ x : List Char,
      (rsearch riDenies x || rsearch riNoAbuseDrink x || rsearch riNoDrinkAbuse x ||
        rsearch riDrinkNoAbuse x || rsearch riAbuseDrinkNo x) = true →
      riAlcoholAbuse x = 0) ∧
    (∀ x : List Char,
      (rsearch raDenies x || rsearch raNoAbuseDrink x || rsearch raNoDrinkAbuse x ||
        rsearch raDrinkNoAbuse x || rsearch raAbuseDrinkNo x) = true →
      raAlcoholAbuse x = 0) ∧
    riAlcoholAbuse "Patient denies alcohol abuse".data = 0 ∧
    raAlcoholAbuse "Patient denies alcohol abuse".data = 0 ∧
    riAlcoholAbuse "Limit alcohol intake recommended".data = 1 ∧
    raAlcoholAbuse "Limit alcohol intake recommended".data = 1 := by
  refine ⟨fun x h => by simp [riAlcoholAbuse, h], fun x h => by simp [raAlcoholAbuse, h],
    by decide, by decide, by decide, by decide⟩

/-- Closed instance of C1: the denial document satisfies a
negative-evidence pattern, and the theorem labels it 0. -/
theorem c1_alcohol_negation_precedence_witness :
    (rsearch riDenies "Patient denies alcohol abuse".data ||
      rsearch riNoAbuseDrink "Patient denies alcohol abuse".data ||
      rsearch riNoDrinkAbuse "Patient denies alcohol abuse".data ||
      rsearch riDrinkNoAbuse "Patient denies alcohol abuse".data ||
      rsearch riAbuseDrinkNo "Patient denies alcohol abuse".data) = true ∧
    riAlcoholAbuse "Patient denies alcohol abuse".data = 0 :=
  ⟨by decide, c1_alcohol_negation_precedence.1 _ (by decide)⟩

/-- C2: for ADVANCED-CAD in both rule-set versions, a document is labeled
1 exactly when at least two of the four evidence types are present (each
counted at most once): at least two distinct drug-list matches, a
non-negated MI mention, a non-negated angina mention, and a non-negated
ischemia mention; a document with exactly one evidence type (here: only
angina) is labeled 0, one with two distinct types (angina and ischemia)
is labeled 1. -/
theorem c2_cad_two_evidence_types :
    (∀ (drugs : List String) (x : List Char),
      riAdvancedCAD drugs x = 1 ↔
        2 ≤ ([cadDrugsEv drugs x, cadFlankEv cadRegexMI 1 3 cadNegImp x,
              cadFlankEv cadRegexAngina 1 2 cadNegImp x,
              cadFlankEv cadRegexIschemia 1 2 cadNegImp x].count true)) ∧
    (∀ (drugs : List String) (x : List Char),
      raAdvancedCAD drugs x = 1 ↔
        2 ≤ ([cadDrugsEv drugs x, cadFlankEv cadRegexMI 1 3 cadNegBase x,
              cadFlankEv cadRegexAngina 1 2 cadNegBase x,
              cadFlankEv cadRegexIschemia 1 2 cadNegBase x].count true)) ∧
    riAdvancedCAD ["atenolol"] "angina".data = 0 ∧
    raAdvancedCAD ["atenolol"] "angina".data = 0 ∧
    riAdvancedCAD ["atenolol"] "angina and ischemia".data = 1 ∧
    raAdvancedCAD ["atenolol"] "angina and ischemia".data = 1 := by
  refine ⟨fun drugs x => ?_, fun drugs x => ?_, by decide, by decide, by decide, by decide⟩
  · cases h1 : cadDrugsEv drugs x <;> cases h2 : cadFlankEv cadRegexMI 1 3 cadNegImp x <;>
      cases h3 : cadFlankEv cadRegexAngina 1 2 cadNegImp x <;>
      cases h4 : cadFlankEv cadRegexIschemia 1 2 cadNegImp x <;>
      simp [riAdvancedCAD, riCadComplications, h1, h2, h3, h4]
  · cases h1 : cadDrugsEv drugs x <;> cases h2 : cadFlankEv cadRegexMI 1 3 cadNegBase x <;>
      cases h3 : cadFlankEv cadRegexAngina 1 2 cadNegBase x <;>
      cases h4 : cadFlankEv cadRegexIschemia 1 2 cadNegBase x <;>
      simp [raAdvancedCAD, raCadComplications, h1, h2, h3, h4]

/-- C3: the improved HBA1C matcher labels a document 1 exactly when the
most recently reported extracted value — the last element of the value
list, not any element — lies in the closed interval [6.5, 9.5]; the
document reporting 7.0 then 10.0 is labeled 0, the reversed one 1. -/
theorem c3_hba1c_most_recent_value :
    (∀ x : List Char,
      riHba1c x = 1 ↔
        ∃ v, (riHba1cValues x).getLast? = some v ∧ mkRat 65 10 ≤ v ∧ v ≤ mkRat 95 10) ∧
    riHba1c "A1C 7.0\nA1C 10.0".data = 0 ∧
    riHba1c "A1C 10.0\nA1C 7.0".data = 1 := by
  refine ⟨fun x => ?_, by decide, by decide⟩
  unfold riHba1c
  cases h : (riHba1cValues x).getLast? with
  | none => simp
  | some lv =>
    by_cases hin : mkRat 65 10 ≤ lv ∧ lv ≤ mkRat 95 10
    · simp [hin]
    · simp only [if_neg hin]
      constructor
      · intro h01; exact absurd h01 one_ne_zero.symm
      · rintro ⟨v, hv, h1, h2⟩
        rw [Option.some_inj] at hv
        exact absurd ⟨hv ▸ h1, hv ▸ h2⟩ hin

/-- C4: the improved CREATININE matcher labels a document 1 whenever some
extracted creatinine value exceeds 1.4 or the explicit elevated-creatinine
phrase matches; a document with value 1.6 is labeled 1, one with 1.2 is
labeled 0. -/
theorem c4_creatinine_threshold :
    (∀ x : List Char,
      ((∃ v ∈ riCreValues x, mkRat 14 10 < v) ∨
        rsearch riCreElevated (riCreClean x) = true) →
      riCreatinine x = 1) ∧
    riCreatinine "Creatinine 1.6".data = 1 ∧
    riCreatinine "Creatinine 1.2".data = 0 := by
  refine ⟨fun x h => ?_, by decide, by decide⟩
  unfold riCreatinine
  rcases h with ⟨v, hv, hgt⟩ | h
  · have : (riCreValues x).any (fun v => mkRat 14 10 < v) = true :=
      List.any_eq_true.mpr ⟨v, hv, decide_eq_true hgt⟩
    simp [this]
  · simp [h]

/-- Closed instance of C4: the 1.6 document has an extracted value above
the threshold, and the theorem labels it 1. -/
theorem c4_creatinine_threshold_witness :
    ((∃ v ∈ riCreValues "Creatinine 1.6".data, mkRat 14 10 < v) ∨
      rsearch riCreElevated (riCreClean "Creatinine 1.6".data) = true) ∧
    riCreatinine "Creatinine 1.6".data = 1 :=
  ⟨Or.inl (by decide), c4_creatinine_threshold.1 _ (Or.inl (by decide))⟩

/-- C10: documents free of every negative-evidence pattern — the empty
document among them — are labeled 1 by the ENGLISH and MAKES-DECISIONS
matchers of both rule-set versions, whereas every other implemented
criterion labels the empty (pattern-free) document 0. -/
theorem c10_default_met_criteria :
    (∀ x : List Char,
      (rsearch englishRegex1 x || rsearch riEnglishRegex2 x ||
        rsearch riEnglishRegex3 x) = false → riEnglish x = 1) ∧
    (∀ x : List Char,
      (rsearch englishRegex1 x || rsearch raEnglishRegex2 x) = false → raEnglish x = 1) ∧
    (∀ x : List Char,
      (rsearch riMkdRegex1 x || rsearch riMkdRegex2 x || rsearch riMkdRegex3 x ||
        rsearch riMkdRegex4 x || rsearch riMkdRegex5 x || rsearch riMkdRegex6 x ||
        rsearch riMkdRegex7 x || rsearch riMkdRegex8 x || rsearch riMkdRegex9 x) = false →
      riMakesDecisions x = 1) ∧
    (∀ x : List Char,
      (rsearch raMkdRegex1 x || rsearch raMkdRegex2 x || rsearch raMkdRegex3 x ||
        rsearch raMkdRegex4 x || rsearch raMkdRegex5 x) = false →
      raMakesDecisions x = 1) ∧
    riEnglish [] = 1 ∧ raEnglish [] = 1 ∧ riMakesDecisions [] = 1 ∧ raMakesDecisions [] = 1 ∧
    (∀ drugs : List String, riAdvancedCAD drugs [] = 0 ∧ raAdvancedCAD drugs [] = 0) ∧
    riAlcoholAbuse [] = 0 ∧ raAlcoholAbuse [] = 0 ∧
    riAspForMI [] = 0 ∧ raAspForMI [] = 0 ∧
    riCreatinine [] = 0 ∧ raCreatinine [] = 0 ∧
    dietSupp2Mos [] = 0 ∧
    riDrugAbuse [] = 0 ∧ raDrugAbuse [] = 0 ∧
    riHba1c [] = 0 ∧ raHba1c [] = 0 ∧
    keto1Yr [] = 0 ∧
    riMi6Mos [] = 0 ∧ raMi6Mos [] = 0 := by
  refine ⟨fun x h => by simp [riEnglish, h], fun x h => by simp [raEnglish, h],
    fun x h => by simp [riMakesDecisions, h], fun x h => by simp [raMakesDecisions, h],
    by decide, by decide, by decide, by decide, fun drugs => ⟨rfl, rfl⟩,
    by decide, by decide, by decide, by decide, by decide, by decide, by decide,
    by decide, by decide, by decide, by decide, by decide, by decide, by decide⟩

/-- Closed instance of C10: the empty document satisfies no negative
pattern of either ENGLISH version, and the theorem labels it 1. -/
theorem c10_default_met_criteria_witness :
    (rsearch englishRegex1 [] || rsearch riEnglishRegex2 [] ||
      rsearch riEnglishRegex3 []) = false ∧ riEnglish [] = 1 :=
  ⟨by decide, c10_default_met_criteria.1 [] (by decide)⟩

/-- Self-comparison confusion counts of a binary label vector: all the
positives are true positives, all the negatives true negatives. -/
theorem tpTnFpFn_self (l : List Nat) (h : ∀ x ∈ l, x = 0 ∨ x = 1) :
    tpTnFpFn l l = (l.count 1, l.count 0, 0, 0) := by
  induction l with
  | nil => simp [tpTnFpFn]
  | cons a t ih =>
    have ha := h a (by simp)
    have ih' := ih (fun x hx => h x (List.mem_cons_of_mem _ hx))
    rcases ha with rfl | rfl <;> simp [tpTnFpFn, ih', List.count_cons]

/-- Inverted labels are binary. -/
theorem invert_binary (l : List Nat) : ∀ x ∈ invert l, x = 0 ∨ x = 1 := by
  intro x hx
  simp only [invert, List.mem_map] at hx
  obtain ⟨e, _, rfl⟩ := hx
  by_cases he : e = 0 <;> simp [he]

/-- Inversion turns every 0 into a 1. -/
theorem count_one_invert (l : List Nat) : (invert l).count 1 = l.count 0 := by
  induction l with
  | nil => rfl
  | cons a t ih =>
    by_cases ha : a = 0 <;> simp [invert, List.count_cons, ha] at ih ⊢ <;> omega

/-- Inversion turns every 1 of a binary vector into a 0. -/
theorem count_zero_invert (l : List Nat) (h : ∀ x ∈ l, x = 0 ∨ x = 1) :
    (invert l).count 0 = l.count 1 := by
  induction l with
  | nil => rfl
  | cons a t ih =>
    have ha := h a (by simp)
    have ih' := ih (fun x hx => h x (List.mem_cons_of_mem _ hx))
    rcases ha with rfl | rfl <;> simp [invert, List.count_cons] at ih' ⊢ <;> omega

/-- A perfect confusion row (no false positives, no false negatives, at
least one true positive) has F1 = 1. -/
theorem f1_perfect (tp tn : Nat) (h : 0 < tp) : f1 tp tn 0 0 = 1 := by
  have hne : tp + 0 ≠ 0 := by omega
  have hc : (tp : ℚ) ≠ 0 := Nat.cast_ne_zero.mpr (by omega)
  simp only [f1, if_neg hne, Nat.cast_zero, add_zero, div_self hc]
  simp only [Nat.pos_iff_ne_zero.mp h, if_false]
  norm_num

/-- Self-comparison of a binary label vector containing at least one 1
scores F1 = 1. -/
theorem mkMetrics_self_F1 (l : List Nat) (hb : ∀ x ∈ l, x = 0 ∨ x = 1) (h1 : 1 ∈ l) :
    (mkMetrics l l).F1 = 1 := by
  have hF : (mkMetrics l l).F1 = f1 (l.count 1) (l.count 0) 0 0 := by
    simp [mkMetrics, tpTnFpFn_self l hb]
  rw [hF]
  exact f1_perfect _ _ (List.count_pos_iff.mpr h1)

/-- A corpus of one patient whose label is 0 for every criterion. -/
def allZeroCorpus : Tag → List Nat := fun _ => [0]

/-- C8 counterexample: evaluating the all-zero one-patient corpus against
an identical copy of itself does not give F1 = 1.0 everywhere: the met
F1 of every criterion is 0 (no true positives, so the precision raises
`ZeroDivisionError` and falls back to 0.0), and so are the micro and
macro met F1 — refuting the claim at this concrete corpus. -/
theorem c8_self_evaluation_counterexample :
    (metCell allZeroCorpus allZeroCorpus Tag.ABDOMINAL).F1 = 0 ∧
    (metCell allZeroCorpus allZeroCorpus Tag.ABDOMINAL).F1 ≠ 1 ∧
    (microCell (metCell allZeroCorpus allZeroCorpus)).F1 ≠ 1 ∧
    macF1 (metCell allZeroCorpus allZeroCorpus) ≠ 1 := by
  have hmac : ∀ t : Tag, (metCell allZeroCorpus allZeroCorpus t).F1 = 0 := by
    intro t; cases t <;> decide
  refine ⟨by decide, by decide, by decide, ?_⟩
  simp [macF1, allTags, hmac]

/-- C8 amended: self-evaluation yields F1 = 1.0 for every criterion, for
the micro and the macro aggregate, in both polarities and overall,
provided every criterion's label vector is binary and contains at least
one met and one not-met label; vectors missing a class score 0 instead. -/
theorem c8_self_evaluation_amended (tls : Tag → List Nat)
    (hb : ∀ tag, ∀ x ∈ tls tag, x = 0 ∨ x = 1)
    (h1 : ∀ tag, 1 ∈ tls tag) (h0 : ∀ tag, 0 ∈ tls tag) :
    (∀ tag, (metCell tls tls tag).F1 = 1 ∧ (notMetCell tls tls tag).F1 = 1 ∧
      tagOverallF1 tls tls tag = 1) ∧
    (microCell (metCell tls tls)).F1 = 1 ∧
    (microCell (notMetCell tls tls)).F1 = 1 ∧
    microOverallF1 tls tls = 1 ∧
    macF1 (metCell tls tls) = 1 ∧
    macF1 (notMetCell tls tls) = 1 ∧
    macOverallF1 tls tls = 1 := by
  have hmet : ∀ tag, (metCell tls tls tag).F1 = 1 := fun tag =>
    mkMetrics_self_F1 _ (hb tag) (h1 tag)
  have hnot : ∀ tag, (notMetCell tls tls tag).F1 = 1 := fun tag => by
    unfold notMetCell
    refine mkMetrics_self_F1 _ (invert_binary _) ?_
    have : 0 < (invert (tls tag)).count 1 := by
      rw [count_one_invert]
      exact List.count_pos_iff.mpr (h0 tag)
    exact List.count_pos_iff.mp this
  have hTP : ∀ tag, (metCell tls tls tag).TP = (tls tag).count 1 := fun tag => by
    unfold metCell mkMetrics; rw [tpTnFpFn_self _ (hb tag)]
  have hFP : ∀ tag, (metCell tls tls tag).FP = 0 := fun tag => by
    unfold metCell mkMetrics; rw [tpTnFpFn_self _ (hb tag)]
  have hFN : ∀ tag, (metCell tls tls tag).FN = 0 := fun tag => by
    unfold metCell mkMetrics; rw [tpTnFpFn_self _ (hb tag)]
  have hTP' : ∀ tag, (notMetCell tls tls tag).TP = (invert (tls tag)).count 1 := fun tag => by
    unfold notMetCell mkMetrics; rw [tpTnFpFn_self _ (invert_binary _)]
  have hFP' : ∀ tag, (notMetCell tls tls tag).FP = 0 := fun tag => by
    unfold notMetCell mkMetrics; rw [tpTnFpFn_self _ (invert_binary _)]
  have hFN' : ∀ tag, (notMetCell tls tls tag).FN = 0 := fun tag => by
    unfold notMetCell mkMetrics; rw [tpTnFpFn_self _ (invert_binary _)]
  have hmicromet : (microCell (metCell tls tls)).F1 = 1 := by
    have htp : 0 < (allTags.map (fun t => (metCell tls tls t).TP)).sum := by
      have h := hTP Tag.ABDOMINAL
      have hpos : 0 < (tls Tag.ABDOMINAL).count 1 := List.count_pos_iff.mpr (h1 _)
      simp only [allTags, List.map_cons, List.map_nil, List.sum_cons, List.sum_nil]
      omega
    have hfp : (allTags.map (fun t => (metCell tls tls t).FP)).sum = 0 := by
      simp [allTags, hFP]
    have hfn : (allTags.map (fun t => (metCell tls tls t).FN)).sum = 0 := by
      simp [allTags, hFN]
    unfold microCell
    simp only [hfp, hfn]
    exact f1_perfect _ _ htp
  have hmicronot : (microCell (notMetCell tls tls)).F1 = 1 := by
    have htp : 0 < (allTags.map (fun t => (notMetCell tls tls t).TP)).sum := by
      have h := hTP' Tag.ABDOMINAL
      have hpos : 0 < (invert (tls Tag.ABDOMINAL)).count 1 := by
        rw [count_one_invert]; exact List.count_pos_iff.mpr (h0 _)
      simp only [allTags, List.map_cons, List.map_nil, List.sum_cons, List.sum_nil]
      omega
    have hfp : (allTags.map (fun t => (notMetCell tls tls t).FP)).sum = 0 := by
      simp [allTags, hFP']
    have hfn : (allTags.map (fun t => (notMetCell tls tls t).FN)).sum = 0 := by
      simp [allTags, hFN']
    unfold microCell
    simp only [hfp, hfn]
    exact f1_perfect _ _ htp
  have hmacmet : macF1 (metCell tls tls) = 1 := by
    simp [macF1, allTags, hmet]
    norm_num
  have hmacnot : macF1 (notMetCell tls tls) = 1 := by
    simp [macF1, allTags, hnot]
    norm_num
  refine ⟨fun tag => ⟨hmet tag, hnot tag, ?_⟩, hmicromet, hmicronot, ?_, hmacmet, hmacnot, ?_⟩
  · unfold tagOverallF1
    rw [hmet tag, hnot tag]
    norm_num
  · unfold microOverallF1
    rw [hmicromet, hmicronot]
    norm_num
  · unfold macOverallF1
    rw [hmacmet, hmacnot]
    norm_num

/-- Closed instance of C8 (amended) at a concrete two-patient corpus with
one met and one not-met label per criterion. -/
theorem c8_self_evaluation_amended_witness :
    (∀ tag : Tag, ∀ x ∈ (fun _ : Tag => [0, 1]) tag, x = 0 ∨ x = 1) ∧
    (∀ tag : Tag, 1 ∈ (fun _ : Tag => [0, 1]) tag) ∧
    (∀ tag : Tag, 0 ∈ (fun _ : Tag => [0, 1]) tag) ∧
    microOverallF1 (fun _ : Tag => [0, 1]) (fun _ : Tag => [0, 1]) = 1 :=
  ⟨by decide, by decide, by decide,
    (c8_self_evaluation_amended (fun _ => [0, 1]) (by decide) (by decide) (by decide)).2.2.2.1⟩

/-- The spec's "low-high numeric pair" pattern, assembled from its prose:
a number (digits with an optional decimal part), a dash, a number. -/
def specPairRx : Rx :=
  cat [plus digitCh, .rep (fun c => c == '.') 0 (some 1) false, star digitCh, chr '-',
    plus digitCh, .rep (fun c => c == '.') 0 (some 1) false, star digitCh]

/-- The spec's reading of the range: the first low-high numeric pair of
the line, split on the dash, both parts parsed as numbers. -/
def specRange (cl : List Char) : Option (ℚ × ℚ) :=
  (rnext specPairRx none cl).map (fun y =>
    let parts := y.2.1.splitOn '-'
    (parseFloat (parts.getD 0 []), parseFloat (parts.getD 1 [])))

/-- `runLen` is the length of the matching prefix. -/
theorem runLen_eq (p : Char → Bool) (s : List Char) :
    runLen p s = (s.takeWhile p).length := by
  induction s with
  | nil => rfl
  | cons c t ih => by_cases hc : p c <;> simp [runLen, List.takeWhile_cons, hc, ih]

/-- Dropping the matching run is `dropWhile`. -/
theorem drop_runLen (p : Char → Bool) (s : List Char) :
    s.drop (runLen p s) = s.dropWhile p := by
  induction s with
  | nil => rfl
  | cons c t ih => by_cases hc : p c <;> simp [runLen, List.dropWhile_cons, hc, ih]

/-- After `dropWhile p` no prefix satisfies `p`. -/
theorem runLen_dropWhile (p : Char → Bool) (s : List Char) :
    runLen p (s.dropWhile p) = 0 := by
  induction s with
  | nil => rfl
  | cons c t ih => by_cases hc : p c <;> simp [List.dropWhile_cons, hc, runLen, ih]

/-- Positions strictly inside the matching run still satisfy `p`. -/
theorem drop_lt_runLen (p : Char → Bool) (s : List Char) (k : Nat) (h : k < runLen p s) :
    ∃ c t, s.drop k = c :: t ∧ p c = true := by
  induction s generalizing k with
  | nil => simp [runLen] at h
  | cons c t ih =>
    by_cases hc : p c
    · cases k with
      | zero => exact ⟨c, t, rfl, hc⟩
      | succ k' =>
        simp only [runLen, hc, if_true] at h
        exact ih k' (by omega)
    · simp [runLen, hc] at h

/-- The head of a `flatMap` is the head of the image of the head. -/
theorem head?_flatMap {α β : Type} {l : List α} {f : α → List β} {a : α} {b : β}
    (ha : l.head? = some a) (hb : (f a).head? = some b) :
    (l.flatMap f).head? = some b := by
  cases l with
  | nil => simp at ha
  | cons x t =>
    simp only [List.head?_cons, Option.some_inj] at ha
    subst ha
    cases hfa : f x with
    | nil => rw [hfa] at hb; simp at hb
    | cons y u =>
      rw [hfa] at hb
      simp only [List.head?_cons, Option.some_inj] at hb
      subst hb
      simp [List.flatMap_cons, hfa]

/-- The head of a greedy repetition's result list: consume the whole
available run `m` (capped by the bound), provided `mn ≤ m`. -/
theorem mrun_rep_greedy_head (p : Char → Bool) (mn : Nat) (mx : Option Nat) (pv : Option Char)
    (s : List Char) (cs : Caps) (m : Nat)
    (hm : (match mx with | some b => min (runLen p s) b | none => runLen p s) = m)
    (hmn : mn ≤ m) :
    (mrun (.rep p mn mx false) pv s cs).head? =
      some (if m = 0 then pv else (match s.drop (m - 1) with | c :: _ => some c | [] => pv),
        s.drop m, cs) := by
  have hr : List.range (m - mn + 1) = 0 :: (List.range (m - mn)).map Nat.succ := by
    exact List.range_succ_eq_map (m - mn)
  simp only [mrun, hm, repKs, if_pos hmn, hr, List.map_cons, List.head?_cons,
    List.head?_map, Nat.sub_zero]
  by_cases h0 : m = 0 <;> simp [h0]

/-- A value-pattern match attempt fails exactly when the position does not
start with a digit. -/
theorem mrun_value_eq_nil (pv : Option Char) (s : List Char) (cs : Caps)
    (h : runLen digitCh s = 0) :
    mrun REGEX_CURRENT_VALUE pv s cs = [] := by
  simp [REGEX_CURRENT_VALUE, cat, plus, mrun, h, repKs]

/-- `scanNum` when no dot follows the digit run. -/
theorem scanNum_eq_no_dot (s : List Char) (hnd : ∀ r2, s.dropWhile digitCh ≠ '.' :: r2) :
    scanNum s = s.takeWhile digitCh := by
  unfold scanNum
  split
  · next r2 heq => exact absurd heq (hnd r2)
  · rfl

/-- `scanNum` when a dot follows the digit run. -/
theorem scanNum_eq_dot (s : List Char) (r2 : List Char)
    (hu : s.dropWhile digitCh = '.' :: r2) :
    scanNum s = s.takeWhile digitCh ++ '.' :: r2.takeWhile digitCh := by
  unfold scanNum
  rw [hu]
  rfl

/-- Length accounting for `scanNum`: the whole digit run, a dot when one
follows, and the digit run after the dot. -/
theorem scanNum_len (s : List Char) :
    (scanNum s).length =
      runLen digitCh s +
        (min (runLen (fun c => c == '.') (s.drop (runLen digitCh s))) 1 +
          runLen digitCh ((s.drop (runLen digitCh s)).drop
            (min (runLen (fun c => c == '.') (s.drop (runLen digitCh s))) 1))) := by
  rw [drop_runLen]
  cases hu : s.dropWhile digitCh with
  | nil =>
    rw [scanNum_eq_no_dot s (by rw [hu]; intro r2 h; exact absurd h (by simp))]
    simp [hu, runLen, runLen_eq]
  | cons c r2 =>
    by_cases hc : c = '.'
    · subst hc
      have h1 : runLen (fun c => c == '.') ('.' :: r2) = runLen (fun c => c == '.') r2 + 1 := by
        simp [runLen]
      have hmin : min (runLen (fun c => c == '.') r2 + 1) 1 = 1 := by omega
      rw [scanNum_eq_dot s r2 hu]
      simp [hu, h1, hmin, runLen_eq]
      omega
    · have h0 : runLen (fun x => x == '.') (c :: r2) = 0 := by
        simp [runLen, hc]
      have h2 : runLen digitCh (c :: r2) = 0 := by
        have := runLen_dropWhile digitCh s
        rw [hu] at this
        exact this
      rw [scanNum_eq_no_dot s (by rw [hu]; intro r2' h; injection h with h1 _; exact hc h1)]
      simp [hu, h0, h2, runLen_eq]

/-- `scanNum` is a prefix of the line. -/
theorem take_scanNum (s : List Char) : s.take (scanNum s).length = scanNum s := by
  have hp : scanNum s <+: s := by
    cases hu : s.dropWhile digitCh with
    | nil =>
      rw [scanNum_eq_no_dot s (by rw [hu]; intro r2 h; exact absurd h (by simp))]
      exact List.takeWhile_prefix _
    | cons c r2 =>
      by_cases hc : c = '.'
      · subst hc
        rw [scanNum_eq_dot s r2 hu]
        have hs : s.takeWhile digitCh ++ '.' :: r2 = s := by
          conv_rhs => rw [← List.takeWhile_append_dropWhile (p := digitCh) (l := s)]
          rw [hu]
        conv_rhs => rw [← hs]
        exact (List.prefix_append_right_inj _).mpr
          ((List.cons_prefix_cons).mpr ⟨rfl, List.takeWhile_prefix _⟩)
      · rw [scanNum_eq_no_dot s (by rw [hu]; intro r2' h; injection h with h1 _; exact hc h1)]
        exact List.takeWhile_prefix _
  obtain ⟨t, ht⟩ := hp
  calc s.take (scanNum s).length = (scanNum s ++ t).take (scanNum s).length := by rw [ht]
    _ = scanNum s := List.take_left _ _

/-- The committed match of the value pattern at a digit position consumes
exactly `scanNum`. -/
theorem mrun_value_head (pv : Option Char) (s : List Char) (cs : Caps)
    (h : 0 < runLen digitCh s) :
    ∃ pvE, (mrun REGEX_CURRENT_VALUE pv s cs).head? =
      some (pvE, s.drop (scanNum s).length, cs) := by
  have h1 := mrun_rep_greedy_head digitCh 1 none pv s cs (runLen digitCh s) rfl h
  set m := runLen digitCh s with hm
  set pv1 : Option Char :=
    if m = 0 then pv else (match s.drop (m - 1) with | c :: _ => some c | [] => pv) with hpv1
  set u := s.drop m with hu
  set m1 := min (runLen (fun c => c == '.') u) 1 with hm1
  have h2 := mrun_rep_greedy_head (fun c => c == '.') 0 (some 1) pv1 u cs m1 rfl (Nat.zero_le _)
  set pv2 : Option Char :=
    if m1 = 0 then pv1 else (match u.drop (m1 - 1) with | c :: _ => some c | [] => pv1) with hpv2
  set u1 := u.drop m1 with hu1
  set m2 := runLen digitCh u1 with hm2
  have h3 := mrun_rep_greedy_head digitCh 0 none pv2 u1 cs m2 rfl (Nat.zero_le _)
  set pv3 : Option Char :=
    if m2 = 0 then pv2 else (match u1.drop (m2 - 1) with | c :: _ => some c | [] => pv2) with hpv3
  refine ⟨pv3, ?_⟩
  have hdrop : (u1.drop m2) = s.drop (scanNum s).length := by
    rw [hu1, hu, List.drop_drop, List.drop_drop, scanNum_len, ← hm, ← hm1, ← hu, ← hu1, ← hm2]
  have hfin : (mrun (.seq (.rep digitCh 0 none false) .eps) pv2 u1 cs).head? =
      some (pv3, u1.drop m2, cs) := by
    refine head?_flatMap h3 ?_
    simp [mrun]
  have hmid : (mrun (.seq (.rep (fun c => c == '.') 0 (some 1) false)
      (.seq (.rep digitCh 0 none false) .eps)) pv1 u cs).head? =
      some (pv3, u1.drop m2, cs) := by
    refine head?_flatMap h2 ?_
    exact hfin
  have htop : (mrun REGEX_CURRENT_VALUE pv s cs).head? = some (pv3, u1.drop m2, cs) := by
    show (mrun (.seq (.rep digitCh 1 none false) (.seq (.rep (fun c => c == '.') 0 (some 1) false)
      (.seq (.rep digitCh 0 none false) .eps))) pv s cs).head? = _
    refine head?_flatMap h1 ?_
    exact hmid
  rw [htop, hdrop]

/-- The scan loop for the value pattern agrees with the direct
first-number scan: the leftmost `\d+[.]?\d*` match, parsed, is the first
digit-run number of the line. -/
theorem rnext_value_spec (s : List Char) : ∀ pv : Option Char,
    (rnext REGEX_CURRENT_VALUE pv s).map (fun y => parseFloat y.2.1) = specFirstNum s := by
  induction s with
  | nil =>
    intro pv
    rw [rnext]
    rw [mrun_value_eq_nil pv [] [] rfl]
    rfl
  | cons c t ih =>
    intro pv
    by_cases hc : digitCh c
    · have hrun : 0 < runLen digitCh (c :: t) := by simp [runLen, hc]
      obtain ⟨pvE, hhead⟩ := mrun_value_head pv (c :: t) [] hrun
      rw [rnext]
      cases hm : mrun REGEX_CURRENT_VALUE pv (c :: t) [] with
      | nil => rw [hm] at hhead; simp at hhead
      | cons a rest =>
        rw [hm] at hhead
        simp only [List.head?_cons, Option.some_inj] at hhead
        subst hhead
        have hlen : (scanNum (c :: t)).length ≤ (c :: t).length := by
          conv_lhs => rw [← take_scanNum (c :: t)]
          rw [List.length_take]
          omega
        simp only [Option.map_some]
        have hmatched : (c :: t).take ((c :: t).length - ((c :: t).drop (scanNum (c :: t)).length).length)
            = scanNum (c :: t) := by
          rw [List.length_drop]
          have : (c :: t).length - ((c :: t).length - (scanNum (c :: t)).length)
              = (scanNum (c :: t)).length := by omega
          rw [this, take_scanNum]
        simp only [hmatched]
        have : specFirstNum (c :: t) = some (parseFloat (scanNum (c :: t))) := by
          simp [specFirstNum, hc]
        rw [this]
        rfl
    · have hrun : runLen digitCh (c :: t) = 0 := by simp [runLen, hc]
      rw [rnext]
      rw [mrun_value_eq_nil pv (c :: t) [] hrun]
      have : specFirstNum (c :: t) = specFirstNum t := by simp [specFirstNum, hc]
      rw [this, ← ih (some c)]
      cases hr : rnext REGEX_CURRENT_VALUE (some c) t with
      | none => rfl
      | some y => rfl

/-- The value the extractor stores is the first digit-run number of the
canonicalized line. -/
theorem extractorVal_eq_spec (cl : List Char) : extractorVal cl = specFirstNum cl :=
  rnext_value_spec cl none

/-- Members of `repKs` lie between the two bounds. -/
theorem mem_repKs (mn m k : Nat) (lz : Bool) (h : k ∈ repKs mn m lz) : mn ≤ k ∧ k ≤ m := by
  unfold repKs at h
  by_cases hle : mn ≤ m
  · rw [if_pos hle] at h
    simp only [List.mem_map, List.mem_range] at h
    obtain ⟨d, hd, rfl⟩ := h
    cases lz <;> constructor <;> simp <;> omega
  · rw [if_neg hle] at h; simp at h

/-- A space or tab is neither `<` nor a digit. -/
theorem spTab_not_key (d : Char) (h : isSpTab d = true) :
    (d == '<') = false ∧ digitCh d = false := by
  simp only [isSpTab, Bool.or_eq_true, beq_iff_eq] at h
  rcases h with rfl | rfl <;> exact ⟨rfl, rfl⟩

/-- The `[<]?\d+` tail of the key pattern fails when no digit can follow:
not at the position itself, nor right after a leading `<`. -/
theorem mrun_key_tail_nil (pv : Option Char) (u : List Char) (cs : Caps)
    (h0 : runLen digitCh u = 0)
    (h1 : ∀ d r, u = '<' :: d :: r → digitCh d = false) :
    mrun (.seq (.rep (fun c => c == '<') 0 (some 1) false)
      (.seq (.rep digitCh 1 none false) .eps)) pv u cs = [] := by
  simp only [mrun]
  rw [List.flatMap_eq_nil_iff]
  intro x hx
  simp only [List.mem_map] at hx
  obtain ⟨k1, hk1, rfl⟩ := hx
  obtain ⟨-, hk1b⟩ := mem_repKs 0 _ k1 false hk1
  have hk1le : k1 ≤ 1 := le_trans hk1b (Nat.min_le_right _ _)
  rcases Nat.le_one_iff_eq_zero_or_eq_one.mp hk1le with rfl | rfl
  · simp [h0, repKs]
  · have hlt : 0 < runLen (fun c => c == '<') u :=
      lt_of_lt_of_le Nat.zero_lt_one (le_trans hk1b (Nat.min_le_left _ _))
    obtain ⟨c, v, hcv, hc⟩ := drop_lt_runLen (fun c => c == '<') u 0 hlt
    rw [List.drop_zero] at hcv
    obtain rfl : c = '<' := by simpa using hc
    subst hcv
    have hv : runLen digitCh v = 0 := by
      cases v with
      | nil => rfl
      | cons d r => simp [runLen, h1 d r rfl]
    simp [hv, repKs]

/-- Unfolding of `mrun` on a sequence. -/
theorem mrun_seq (r1 r2 : Rx) (pv : Option Char) (s : List Char) (cs : Caps) :
    mrun (.seq r1 r2) pv s cs =
      (mrun r1 pv s cs).flatMap (fun x => mrun r2 x.1 x.2.1 x.2.2) := rfl


/-- When `ltDigitHere` is false the position has no digit, also not
after a leading `<`. -/
theorem ltDigitHere_false (u : List Char) (h : ltDigitHere u = false) :
    runLen digitCh u = 0 ∧ (∀ d r, u = '<' :: d :: r → digitCh d = false) := by
  cases u with
  | nil => exact ⟨rfl, by intro d r he; cases he⟩
  | cons d0 v =>
    rw [ltDigitHere] at h
    by_cases h0 : d0 = '<'
    · subst h0
      rw [if_pos (by decide)] at h
      refine ⟨by rw [runLen, if_neg (by decide)], ?_⟩
      intro d r he
      injection he with _ h2
      subst h2
      rw [digitHead] at h
      exact h
    · rw [if_neg (by simpa using h0)] at h
      refine ⟨by rw [runLen, h, if_neg (by simp)], ?_⟩
      intro d r he
      injection he with h1 _
      exact absurd h1 h0

/-- When `ltDigitHere` is true a digit starts here, possibly after a
single `<`. -/
theorem ltDigitHere_true (u : List Char) (h : ltDigitHere u = true) :
    (∃ d r, u = '<' :: d :: r ∧ digitCh d = true) ∨
    (∃ d r, u = d :: r ∧ (d == '<') = false ∧ digitCh d = true) := by
  cases u with
  | nil => cases h
  | cons d0 v =>
    rw [ltDigitHere] at h
    by_cases h0 : d0 = '<'
    · subst h0
      rw [if_pos (by decide)] at h
      cases v with
      | nil => cases h
      | cons d1 r1 =>
        rw [digitHead] at h
        exact Or.inl ⟨d1, r1, rfl, h⟩
    · have hbeq : (d0 == '<') = false := by simpa using h0
      rw [if_neg (by simpa using h0)] at h
      exact Or.inr ⟨d0, v, rfl, hbeq, h⟩

/-- The key pattern cannot match at a position where no whitespace run
followed by an optional `<` and a digit starts. -/
theorem mrun_key_nil (pv : Option Char) (s : List Char) (cs : Caps)
    (h : keyCutHere s = false) :
    mrun REGEX_KEY pv s cs = [] := by
  rw [show REGEX_KEY = .seq (.rep isSpTab 1 none false)
    (.seq (.rep (fun c => c == '<') 0 (some 1) false)
      (.seq (.rep digitCh 1 none false) .eps)) from rfl]
  rw [mrun_seq, List.flatMap_eq_nil_iff]
  intro x hx
  simp only [mrun, List.mem_map] at hx
  obtain ⟨k, hk, rfl⟩ := hx
  obtain ⟨hk1, hk2⟩ := mem_repKs 1 _ k false hk
  have hkne : ¬(k = 0) := by omega
  simp only [hkne, if_false]
  rcases lt_or_eq_of_le hk2 with hlt | heq
  · obtain ⟨d, r, hdr, hd⟩ := drop_lt_runLen isSpTab s k hlt
    obtain ⟨hd1, hd2⟩ := spTab_not_key d hd
    refine mrun_key_tail_nil _ (s.drop k) cs ?_ ?_
    · rw [hdr]; simp [runLen, hd2]
    · intro d' r' he
      rw [hdr] at he
      injection he with he1 _
      rw [he1] at hd1
      simp at hd1
  · obtain ⟨c, t, hst, hc⟩ := drop_lt_runLen isSpTab s 0 (by omega)
    rw [List.drop_zero] at hst
    subst hst
    have hu : (c :: t).drop k = t.dropWhile isSpTab := by
      rw [heq, drop_runLen, List.dropWhile_cons_of_pos hc]
    rw [keyCutHere, hc, Bool.true_and] at h
    obtain ⟨h0, h1⟩ := ltDigitHere_false _ h
    refine mrun_key_tail_nil _ ((c :: t).drop k) cs ?_ ?_
    · rw [hu]; exact h0
    · intro d' r' he
      rw [hu] at he
      exact h1 d' r' he

/-- The `[<]?\d+` tail of the key pattern has a committed match when an
optional `<` and a digit start here. -/
theorem mrun_key_tail_ne_nil (pv : Option Char) (u : List Char) (cs : Caps)
    (h : ltDigitHere u = true) :
    ∃ z, (mrun (.seq (.rep (fun c => c == '<') 0 (some 1) false)
      (.seq (.rep digitCh 1 none false) .eps)) pv u cs).head? = some z := by
  rcases ltDigitHere_true u h with ⟨d, r, rfl, hd⟩ | ⟨d, r, rfl, hne, hd⟩
  · have hrl : runLen (fun c => c == '<') ('<' :: d :: r) =
        runLen (fun c => c == '<') (d :: r) + 1 := by
      rw [runLen, if_pos (by decide)]
    have hmin : min (runLen (fun c => c == '<') ('<' :: d :: r)) 1 = 1 := by
      rw [hrl]; omega
    have h2 := mrun_rep_greedy_head (fun c => c == '<') 0 (some 1) pv ('<' :: d :: r) cs 1
      hmin (by omega)
    have hd2 : 1 ≤ runLen digitCh (d :: r) := by rw [runLen, if_pos hd]; omega
    rw [mrun_seq]
    exact ⟨_, head?_flatMap h2 (head?_flatMap
      (mrun_rep_greedy_head digitCh 1 none _ (d :: r) cs _ rfl hd2) rfl)⟩
  · have hrl : runLen (fun c => c == '<') (d :: r) = 0 := by
      rw [runLen]; simp [hne]
    have hmin : min (runLen (fun c => c == '<') (d :: r)) 1 = 0 := by rw [hrl]; rfl
    have h2 := mrun_rep_greedy_head (fun c => c == '<') 0 (some 1) pv (d :: r) cs 0
      hmin (le_refl 0)
    have hd2 : 1 ≤ runLen digitCh (d :: r) := by rw [runLen, if_pos hd]; omega
    rw [mrun_seq]
    exact ⟨_, head?_flatMap h2 (head?_flatMap
      (mrun_rep_greedy_head digitCh 1 none _ (d :: r) cs _ rfl hd2) rfl)⟩

/-- The key pattern has a match at a position where a whitespace run
followed by an optional `<` and a digit starts. -/
theorem mrun_key_ne_nil (pv : Option Char) (s : List Char) (cs : Caps)
    (h : keyCutHere s = true) :
    mrun REGEX_KEY pv s cs ≠ [] := by
  cases s with
  | nil => cases h
  | cons c t =>
    rw [keyCutHere, Bool.and_eq_true] at h
    obtain ⟨hc, hlt⟩ := h
    have hm : 1 ≤ runLen isSpTab (c :: t) := by rw [runLen, if_pos hc]; omega
    have h1 := mrun_rep_greedy_head isSpTab 1 none pv (c :: t) cs
      (runLen isSpTab (c :: t)) rfl hm
    have hu : (c :: t).drop (runLen isSpTab (c :: t)) = t.dropWhile isSpTab := by
      rw [drop_runLen, List.dropWhile_cons_of_pos hc]
    rw [hu] at h1
    obtain ⟨z, hz⟩ := mrun_key_tail_ne_nil
      (if runLen isSpTab (c :: t) = 0 then pv
       else match (c :: t).drop (runLen isSpTab (c :: t) - 1) with
            | c' :: _ => some c'
            | [] => pv)
      (t.dropWhile isSpTab) cs hlt
    have hfin : (mrun REGEX_KEY pv (c :: t) cs).head? = some z := by
      rw [show REGEX_KEY = .seq (.rep isSpTab 1 none false)
        (.seq (.rep (fun c => c == '<') 0 (some 1) false)
          (.seq (.rep digitCh 1 none false) .eps)) from rfl]
      rw [mrun_seq]
      exact head?_flatMap h1 hz
    intro hnil
    rw [hnil] at hfin
    cases hfin

/-- The scan loop for the key pattern splits exactly where the spec's
prose says: the text before the first whitespace-run-`<`?-digits is the
key. -/
theorem rnext_key_spec (s : List Char) : ∀ pv : Option Char,
    (match rnext REGEX_KEY pv s with | some y => y.1 | none => s) = specKey s := by
  induction s with
  | nil =>
    intro pv
    rw [rnext, mrun_key_nil pv [] [] rfl]
    rfl
  | cons c t ih =>
    intro pv
    by_cases h : keyCutHere (c :: t)
    · rw [rnext]
      cases hm : mrun REGEX_KEY pv (c :: t) [] with
      | nil => exact absurd hm (mrun_key_ne_nil pv (c :: t) [] h)
      | cons a rest => simp [specKey, h]
    · have hf : keyCutHere (c :: t) = false := Bool.not_eq_true _ ▸ eq_false_of_ne_true h
      rw [rnext, mrun_key_nil pv (c :: t) [] hf]
      have hs : specKey (c :: t) = c :: specKey t := by
        rw [specKey, if_neg (by simp [hf])]
      rw [hs, ← ih (some c)]
      cases hr : rnext REGEX_KEY (some c) t with
      | none => rfl
      | some y => rfl

/-- The key the extractor stores is the spec's key. -/
theorem extractorKey_eq_spec (cl : List Char) : extractorKey cl = specKey cl := by
  have h := rnext_key_spec cl none
  unfold extractorKey rsplit0
  cases hr : rnext REGEX_KEY none cl with
  | none => rw [hr] at h; exact h
  | some y =>
    rw [hr] at h
    obtain ⟨a, b, c, d, e⟩ := y
    exact h

/-- C9 counterexample: the line `CO2 25 22-30 x` is classified as a table
row, and its extracted value is 2 — the digit embedded in the test name
`CO2` — while the first standalone number of the canonicalized line is 25.
The claim's "value is the first standalone number in the line" is false
on this line. -/
theorem c9_row_value_counterexample :
    isRowLine "CO2 25 22-30 x".data = true ∧
    extractEntry "CO2 25 22-30 x".data = some ("CO2".data, 2, 22, 30) ∧
    firstStandaloneNum (rowCanon (extractorLine "CO2 25 22-30 x".data)) = some 25 ∧
    (2 : ℚ) ≠ 25 := by
  exact ⟨by decide, by decide, by decide, by decide⟩

/-- C9 amended: for every record line the extractor classifies as a table
row (and successfully parses), the produced entry is keyed by everything
in the canonicalized line before the first run of whitespace followed by
an optional `<` and digits; its value is the first digit-run number
appearing anywhere in the line — which may begin inside the test-name
token, not necessarily a standalone number — with an optional decimal
part; and its range is the first low-high numeric pair, split on the
dash, all parsed as numbers. -/
theorem c9_row_fields_amended (line k : List Char) (v lo hi : ℚ)
    (h : extractEntry line = some (k, v, lo, hi)) :
    k = specKey (rowCanon (extractorLine line)) ∧
    some v = specFirstNum (rowCanon (extractorLine line)) ∧
    some (lo, hi) = specRange (rowCanon (extractorLine line)) := by
  unfold extractEntry at h
  by_cases hrow : rsearch REGEX_ROW (extractorLine line)
  · rw [if_pos hrow] at h
    cases hv : extractorVal (rowCanon (extractorLine line)) with
    | none => rw [hv] at h; cases hr : extractorRange (rowCanon (extractorLine line)) <;>
        rw [hr] at h <;> cases h
    | some v' =>
      cases hr : extractorRange (rowCanon (extractorLine line)) with
      | none => rw [hv, hr] at h; cases h
      | some lohi =>
        rw [hv, hr] at h
        simp only [Option.some_inj, Prod.mk.injEq] at h
        obtain ⟨hk, hv2, hlo, hhi⟩ := h
        refine ⟨?_, ?_, ?_⟩
        · rw [← hk, extractorKey_eq_spec]
        · rw [← hv2, ← extractorVal_eq_spec, hv]
        · have hsr : extractorRange (rowCanon (extractorLine line)) =
              specRange (rowCanon (extractorLine line)) := rfl
          rw [← hsr, hr, ← hlo, ← hhi]
  · rw [if_neg hrow] at h
    cases h

/-- Closed instance of C9 (amended) at a well-formed lab row. -/
theorem c9_row_fields_amended_witness :
    extractEntry "Sodium 140 135-145 x".data = some ("Sodium".data, 140, 135, 145) ∧
    "Sodium".data = specKey (rowCanon (extractorLine "Sodium 140 135-145 x".data)) :=
  ⟨by decide, (c9_row_fields_amended "Sodium 140 135-145 x".data "Sodium".data
    140 135 145 (by decide)).1⟩

/-- Closed instance of C2: the two-evidence document is labeled 1 via the
evidence-count criterion. -/
theorem c2_cad_two_evidence_types_witness :
    riAdvancedCAD ["atenolol"] "angina and ischemia".data = 1 :=
  (c2_cad_two_evidence_types.1 ["atenolol"] "angina and ischemia".data).mpr (by decide)

/-- Closed instance of C3: the reversed-order document's last value is 7.0
and it is labeled 1. -/
theorem c3_hba1c_most_recent_value_witness :
    riHba1c "A1C 10.0\nA1C 7.0".data = 1 :=
  (c3_hba1c_most_recent_value.1 "A1C 10.0\nA1C 7.0".data).mpr ⟨7, by decide, by decide, by decide⟩

/-- Closed instance of C5: requesting ABDOMINAL returns no label list. -/
theorem c5_unsupported_tags_fail_witness :
    predictImp [] .ABDOMINAL [] = none :=
  (c5_unsupported_tags_fail [] []).1
